import Mathlib

/-!
Shallow embedding of the Omnitrack inventory/order core (src/database.py and
src/models.py) and verification of the spec's claims about it.

Modelling conventions:
* The PostgreSQL database is a `DBState` value: the four tables are lists of
  rows, with explicit auto-increment counters.  `CURRENT_TIMESTAMP` is the
  state's `now` field (a `Nat`); operations do not advance it, since only
  "set vs. unset" and "changed vs. unchanged" matter to the claims.
* Python / SQL integers are `Int` (unbounded, possibly negative — the code
  performs no sign checks of its own).
* Each `Database` method becomes a function `DBState → args → DBState × result`.
  A method that performs several `commit`s (a stock mutation committed on one
  connection followed by `create_inventory_transaction` on a second) is split
  into its committed steps, and a `...Commits` function lists the states that
  are observable at each commit point, in order.
* `conn.rollback()` / `return None` inside a single multi-statement
  transaction is modelled by discarding the working state and returning the
  pre-state, which is exactly what the rollback makes observable.
-/

namespace Omnitrack

/-- models.py `OrderStatus`. -/
inductive OrderStatus where
  | placed
  | paid
  | delivered
  | cancelled
deriving DecidableEq, Repr

/-- models.py `TransactionType`. -/
inductive TransactionType where
  | reserve
  | sale
  | release
  | restock
deriving DecidableEq, Repr

/-- models.py `Product` (the `products` table row). -/
structure Product where
  id : Nat
  name : String
  description : String
  price : Int
  stock_quantity : Int
  reserved_quantity : Int
  low_stock_threshold : Int
  updated_at : Nat
deriving DecidableEq, Repr

/-- models.py `Product.available_quantity`. -/
def Product.available_quantity (p : Product) : Int :=
  p.stock_quantity - p.reserved_quantity

/-- models.py `Product.is_low_stock`: compares `stock_quantity` (not the
available quantity) to the threshold. -/
def Product.is_low_stock (p : Product) : Bool :=
  p.stock_quantity ≤ p.low_stock_threshold

/-- models.py `OrderItem` (as passed to `create_order`). -/
structure OrderItem where
  product_id : Nat
  quantity : Int
  unit_price : Int
deriving DecidableEq, Repr

/-- A row of the `order_items` table. -/
structure OrderItemRow where
  order_id : Nat
  product_id : Nat
  quantity : Int
  unit_price : Int
deriving DecidableEq, Repr

/-- A row of the `orders` table. -/
structure OrderRow where
  id : Nat
  customer_id : Nat
  status : OrderStatus
  created_at : Nat
  updated_at : Nat
  paid_at : Option Nat
  delivered_at : Option Nat
deriving DecidableEq, Repr

/-- models.py `InventoryTransaction` (the `inventory_transactions` table row). -/
structure InventoryTransaction where
  id : Nat
  product_id : Nat
  transaction_type : TransactionType
  quantity : Int
  order_id : Option Nat
  user_id : Option Nat
  notes : String
  timestamp : Nat
deriving DecidableEq, Repr

/-- models.py `Order` as materialized and returned by `create_order`. -/
structure Order where
  id : Nat
  customer_id : Nat
  items : List OrderItem
  status : OrderStatus
  paid_at : Option Nat
  delivered_at : Option Nat
deriving DecidableEq, Repr

/-- The whole database. -/
structure DBState where
  products : List Product
  orders : List OrderRow
  order_items : List OrderItemRow
  transactions : List InventoryTransaction
  next_product_id : Nat
  next_order_id : Nat
  next_tx_id : Nat
  now : Nat
deriving DecidableEq, Repr

/-- `SELECT ... FROM products WHERE id = %s` (ids are unique). -/
def lookupProduct (ps : List Product) (pid : Nat) : Option Product :=
  ps.find? (fun p => p.id = pid)

/-- `UPDATE products SET ... WHERE id = %s`: applies `f` to the matching row. -/
def updateProduct (ps : List Product) (pid : Nat) (f : Product → Product) :
    List Product :=
  ps.map (fun p => if p.id = pid then f p else p)

/-- `SELECT * FROM orders WHERE id = %s`. -/
def lookupOrder (os : List OrderRow) (oid : Nat) : Option OrderRow :=
  os.find? (fun o => o.id = oid)

/-- `SELECT * FROM order_items WHERE order_id = %s`. -/
def itemsOfOrder (s : DBState) (oid : Nat) : List OrderItemRow :=
  s.order_items.filter (fun r => r.order_id = oid)

/-- `Database.create_inventory_transaction`: INSERT + commit on its own
connection; returns the new row.  Never fails in the model (no schema
constraints exist in the source). -/
def create_inventory_transaction (s : DBState) (pid : Nat)
    (ttype : TransactionType) (qty : Int) (oid : Option Nat)
    (uid : Option Nat) (notes : String) : DBState × InventoryTransaction :=
  let row : InventoryTransaction :=
    { id := s.next_tx_id, product_id := pid, transaction_type := ttype,
      quantity := qty, order_id := oid, user_id := uid, notes := notes,
      timestamp := s.now }
  ({ s with transactions := s.transactions ++ [row],
            next_tx_id := s.next_tx_id + 1 }, row)

/-- `Database.create_product`: INSERT (reserved_quantity = 0) + commit, then a
separate `create_inventory_transaction` RESTOCK "Initial stock" call. -/
def create_product (s : DBState) (name description : String) (price : Int)
    (stock_quantity : Int) (low_stock_threshold : Int) : DBState × Product :=
  let p : Product :=
    { id := s.next_product_id, name := name, description := description,
      price := price, stock_quantity := stock_quantity,
      reserved_quantity := 0, low_stock_threshold := low_stock_threshold,
      updated_at := s.now }
  let s1 := { s with products := s.products ++ [p],
                     next_product_id := s.next_product_id + 1 }
  ((create_inventory_transaction s1 p.id .restock stock_quantity none none
      "Initial stock").1, p)

/-- First transaction of `Database.restock_product`: the unguarded
`UPDATE products SET stock_quantity = stock_quantity + %s WHERE id = %s`
followed by `conn.commit()`.  The boolean is `cur.rowcount > 0`. -/
def restockTx (s : DBState) (pid : Nat) (qty : Int) : DBState × Bool :=
  match lookupProduct s.products pid with
  | some _ =>
      let ps := updateProduct s.products pid (fun p =>
        { p with stock_quantity := p.stock_quantity + qty, updated_at := s.now })
      ({ s with products := ps }, true)
  | none => (s, false)

/-- `Database.restock_product`: commits the stock increment, then (iff a row
was hit) writes the RESTOCK audit entry in a second transaction. -/
def restock_product (s : DBState) (pid : Nat) (qty : Int) (uid : Option Nat) :
    DBState × Bool :=
  let (s1, hit) := restockTx s pid qty
  if hit then
    ((create_inventory_transaction s1 pid .restock qty none uid "").1, true)
  else (s1, false)

/-- The committed states of one `restock_product` call, in commit order. -/
def restockCommits (s : DBState) (pid : Nat) (qty : Int) (uid : Option Nat) :
    List DBState :=
  let (s1, hit) := restockTx s pid qty
  if hit then
    [s1, (create_inventory_transaction s1 pid .restock qty none uid "").1]
  else [s1]

/-- First transaction of `Database.reserve_stock`: SELECT, then iff
`stock_quantity - reserved_quantity >= quantity` the reserved increment and
`conn.commit()`; otherwise nothing is committed. -/
def reserveTx (s : DBState) (pid : Nat) (qty : Int) : DBState × Bool :=
  match lookupProduct s.products pid with
  | some p =>
      if p.stock_quantity - p.reserved_quantity ≥ qty then
        let ps := updateProduct s.products pid (fun q =>
          { q with reserved_quantity := q.reserved_quantity + qty,
                   updated_at := s.now })
        ({ s with products := ps }, true)
      else (s, false)
  | none => (s, false)

/-- `Database.reserve_stock`: on success, the RESERVE audit entry is written
by `create_inventory_transaction` in a second transaction. -/
def reserve_stock (s : DBState) (pid : Nat) (qty : Int) (oid : Nat) :
    DBState × Bool :=
  let (s1, ok) := reserveTx s pid qty
  if ok then
    ((create_inventory_transaction s1 pid .reserve qty (some oid) none "").1,
     true)
  else (s1, false)

/-- The committed states of one `reserve_stock` call, in commit order (the
failure path commits nothing). -/
def reserveCommits (s : DBState) (pid : Nat) (qty : Int) (oid : Nat) :
    List DBState :=
  let (s1, ok) := reserveTx s pid qty
  if ok then
    [s1, (create_inventory_transaction s1 pid .reserve qty (some oid) none "").1]
  else []

/-- First transaction of `Database.release_stock`: the guarded
`UPDATE ... WHERE id = %s AND reserved_quantity >= %s` plus `conn.commit()`. -/
def releaseTx (s : DBState) (pid : Nat) (qty : Int) : DBState × Bool :=
  match lookupProduct s.products pid with
  | some p =>
      if p.reserved_quantity ≥ qty then
        let ps := updateProduct s.products pid (fun q =>
          { q with reserved_quantity := q.reserved_quantity - qty,
                   updated_at := s.now })
        ({ s with products := ps }, true)
      else (s, false)
  | none => (s, false)

/-- `Database.release_stock`. -/
def release_stock (s : DBState) (pid : Nat) (qty : Int) (oid : Nat) :
    DBState × Bool :=
  let (s1, hit) := releaseTx s pid qty
  if hit then
    ((create_inventory_transaction s1 pid .release qty (some oid) none "").1,
     true)
  else (s1, false)

/-- The committed states of one `release_stock` call, in commit order (the
guarded UPDATE's commit happens even when it matched no row). -/
def releaseCommits (s : DBState) (pid : Nat) (qty : Int) (oid : Nat) :
    List DBState :=
  let (s1, hit) := releaseTx s pid qty
  if hit then
    [s1, (create_inventory_transaction s1 pid .release qty (some oid) none "").1]
  else [s1]

/-- First transaction of `Database.sell_product`: the guarded double
decrement plus `conn.commit()`. -/
def sellTx (s : DBState) (pid : Nat) (qty : Int) : DBState × Bool :=
  match lookupProduct s.products pid with
  | some p =>
      if p.reserved_quantity ≥ qty then
        let ps := updateProduct s.products pid (fun q =>
          { q with stock_quantity := q.stock_quantity - qty,
                   reserved_quantity := q.reserved_quantity - qty,
                   updated_at := s.now })
        ({ s with products := ps }, true)
      else (s, false)
  | none => (s, false)

/-- `Database.sell_product`. -/
def sell_product (s : DBState) (pid : Nat) (qty : Int) (oid : Nat) :
    DBState × Bool :=
  let (s1, hit) := sellTx s pid qty
  if hit then
    ((create_inventory_transaction s1 pid .sale qty (some oid) none "").1, true)
  else (s1, false)

/-- The committed states of one `sell_product` call, in commit order. -/
def sellCommits (s : DBState) (pid : Nat) (qty : Int) (oid : Nat) :
    List DBState :=
  let (s1, hit) := sellTx s pid qty
  if hit then
    [s1, (create_inventory_transaction s1 pid .sale qty (some oid) none "").1]
  else [s1]

/-- The inventory_transactions row inserted inline by `create_order` for one
reserved item (the INSERT names product_id, transaction_type, quantity and
order_id; user_id stays NULL). -/
def reserveEntry (txid now oid : Nat) (it : OrderItem) : InventoryTransaction :=
  { id := txid, product_id := it.product_id, transaction_type := .reserve,
    quantity := it.quantity, order_id := some oid, user_id := none,
    notes := "", timestamp := now }

/-- The per-item body of `Database.create_order`'s loop: lock + SELECT the
product; if it is missing or `stock - reserved < quantity`, roll back
(`none`); otherwise increment reserved_quantity and insert the RESERVE audit
row and the order_items row, all in the same working transaction. -/
def reserveLoop (w : DBState) (oid : Nat) : List OrderItem → Option DBState
  | [] => some w
  | it :: rest =>
    match lookupProduct w.products it.product_id with
    | none => none
    | some p =>
      if p.stock_quantity - p.reserved_quantity < it.quantity then none
      else
        let ps := updateProduct w.products it.product_id (fun q =>
          { q with reserved_quantity := q.reserved_quantity + it.quantity,
                   updated_at := w.now })
        let row : OrderItemRow :=
          { order_id := oid, product_id := it.product_id,
            quantity := it.quantity, unit_price := it.unit_price }
        reserveLoop
          { w with products := ps,
                   transactions :=
                     w.transactions ++ [reserveEntry w.next_tx_id w.now oid it],
                   next_tx_id := w.next_tx_id + 1,
                   order_items := w.order_items ++ [row] }
          oid rest

/-- The PLACED order row `create_order` inserts (`INSERT INTO orders
(customer_id, status) VALUES (%s, 'placed') RETURNING *`). -/
def placedRow (s : DBState) (customer_id : Nat) : OrderRow :=
  { id := s.next_order_id, customer_id := customer_id, status := .placed,
    created_at := s.now, updated_at := s.now,
    paid_at := none, delivered_at := none }

/-- `Database.create_order`: one transaction that inserts the PLACED order
row, then runs the reservation loop; any per-item failure rolls the whole
transaction back (`conn.rollback(); return None`), otherwise everything
commits together and the materialized `Order` is returned. -/
def create_order (s : DBState) (customer_id : Nat) (items : List OrderItem) :
    DBState × Option Order :=
  match reserveLoop
      { s with orders := s.orders ++ [placedRow s customer_id],
               next_order_id := s.next_order_id + 1 }
      s.next_order_id items with
  | none => (s, none)
  | some w =>
      (w, some { id := s.next_order_id, customer_id := customer_id,
                 items := items, status := .placed,
                 paid_at := none, delivered_at := none })

/-- The SALE audit row inserted by `update_order_status` for one item. -/
def saleEntry (txid now oid : Nat) (uid : Option Nat) (r : OrderItemRow) :
    InventoryTransaction :=
  { id := txid, product_id := r.product_id, transaction_type := .sale,
    quantity := r.quantity, order_id := some oid, user_id := uid,
    notes := "", timestamp := now }

/-- The RELEASE audit row inserted by `update_order_status` for one item. -/
def releaseEntry (txid now oid : Nat) (uid : Option Nat) (r : OrderItemRow) :
    InventoryTransaction :=
  { id := txid, product_id := r.product_id, transaction_type := .release,
    quantity := r.quantity, order_id := some oid, user_id := uid,
    notes := "", timestamp := now }

/-- The PAID branch of `update_order_status`: for each item row, the guarded
`UPDATE products ... WHERE id = %s AND reserved_quantity >= %s` (a miss
updates nothing and is not checked), then the unconditional SALE INSERT. -/
def saleLoop (w : DBState) (oid : Nat) (uid : Option Nat) :
    List OrderItemRow → DBState
  | [] => w
  | r :: rest =>
    let ps :=
      match lookupProduct w.products r.product_id with
      | some p =>
          if p.reserved_quantity ≥ r.quantity then
            updateProduct w.products r.product_id (fun q =>
              { q with stock_quantity := q.stock_quantity - r.quantity,
                       reserved_quantity := q.reserved_quantity - r.quantity,
                       updated_at := w.now })
          else w.products
      | none => w.products
    saleLoop
      { w with products := ps,
               transactions :=
                 w.transactions ++ [saleEntry w.next_tx_id w.now oid uid r],
               next_tx_id := w.next_tx_id + 1 }
      oid uid rest

/-- The CANCELLED branch of `update_order_status`: guarded release of the
reservation per item, then the unconditional RELEASE INSERT. -/
def releaseLoop (w : DBState) (oid : Nat) (uid : Option Nat) :
    List OrderItemRow → DBState
  | [] => w
  | r :: rest =>
    let ps :=
      match lookupProduct w.products r.product_id with
      | some p =>
          if p.reserved_quantity ≥ r.quantity then
            updateProduct w.products r.product_id (fun q =>
              { q with reserved_quantity := q.reserved_quantity - r.quantity,
                       updated_at := w.now })
          else w.products
      | none => w.products
    releaseLoop
      { w with products := ps,
               transactions :=
                 w.transactions ++ [releaseEntry w.next_tx_id w.now oid uid r],
               next_tx_id := w.next_tx_id + 1 }
      oid uid rest

/-- The final `UPDATE orders SET status, updated_at [, paid_at][, delivered_at]
WHERE id = %s` of `update_order_status`. -/
def applyStatusRow (status : OrderStatus) (now : Nat) (o : OrderRow) :
    OrderRow :=
  { o with
    status := status,
    updated_at := now,
    paid_at := if status = .paid then some now else o.paid_at,
    delivered_at := if status = .delivered then some now else o.delivered_at }

/-- `Database.update_order_status`: SELECT the order (absent → False, no
mutation); branch on the *requested* status — the current status is never
consulted; finally update the order row and commit everything at once. -/
def update_order_status (s : DBState) (oid : Nat) (status : OrderStatus)
    (uid : Option Nat) : DBState × Bool :=
  match lookupOrder s.orders oid with
  | none => (s, false)
  | some _ =>
    let rows := itemsOfOrder s oid
    let w :=
      match status with
      | .paid => saleLoop s oid uid rows
      | .cancelled => releaseLoop s oid uid rows
      | _ => s
    let os := w.orders.map (fun o =>
      if o.id = oid then applyStatusRow status w.now o else o)
    ({ w with orders := os }, true)

/-! ## Reachability: the public operations as a step relation (for C6/C7). -/

/-- One public mutating operation with its arguments. -/
inductive Op where
  | createProduct (name description : String) (price stock threshold : Int)
  | restock (pid : Nat) (qty : Int) (uid : Option Nat)
  | reserve (pid : Nat) (qty : Int) (oid : Nat)
  | release (pid : Nat) (qty : Int) (oid : Nat)
  | sell (pid : Nat) (qty : Int) (oid : Nat)
  | createOrder (cid : Nat) (items : List OrderItem)
  | updateOrderStatus (oid : Nat) (status : OrderStatus) (uid : Option Nat)
deriving Repr

/-- Running one operation for its state effect. -/
def applyOp (s : DBState) : Op → DBState
  | .createProduct n d pr st th => (create_product s n d pr st th).1
  | .restock pid qty uid => (restock_product s pid qty uid).1
  | .reserve pid qty oid => (reserve_stock s pid qty oid).1
  | .release pid qty oid => (release_stock s pid qty oid).1
  | .sell pid qty oid => (sell_product s pid qty oid).1
  | .createOrder cid items => (create_order s cid items).1
  | .updateOrderStatus oid st uid => (update_order_status s oid st uid).1

/-- The empty database. -/
def initState : DBState :=
  { products := [], orders := [], order_items := [], transactions := [],
    next_product_id := 1, next_order_id := 1, next_tx_id := 1, now := 0 }

/-- State after a sequence of public operations from `s`. -/
def runOps (s : DBState) (ops : List Op) : DBState := ops.foldl applyOp s

/-- The per-product invariant claimed by the spec:
`0 ≤ reserved_quantity ≤ stock_quantity`. -/
def prodInv (p : Product) : Prop :=
  0 ≤ p.reserved_quantity ∧ p.reserved_quantity ≤ p.stock_quantity

instance (p : Product) : Decidable (prodInv p) := by
  unfold prodInv; infer_instance

/-- All products of the state satisfy the reserved/stock invariant. -/
def stateInv (s : DBState) : Prop := ∀ p ∈ s.products, prodInv p

instance (s : DBState) : Decidable (stateInv s) := by
  unfold stateInv; infer_instance

/-! ## Derived quantities used to state the claims. -/

/-- Total quantity of the order_items rows that reference product `pid`. -/
def rowSum : List OrderItemRow → Nat → Int
  | [], _ => 0
  | r :: rest, pid =>
      (if r.product_id = pid then r.quantity else 0) + rowSum rest pid

/-- Total quantity of the `OrderItem`s that reference product `pid`. -/
def itemSum : List OrderItem → Nat → Int
  | [], _ => 0
  | it :: rest, pid =>
      (if it.product_id = pid then it.quantity else 0) + itemSum rest pid

/-- The SALE rows `saleLoop` inserts, with their consecutive generated ids. -/
def saleEntriesFrom (txid now oid : Nat) (uid : Option Nat) :
    List OrderItemRow → List InventoryTransaction
  | [] => []
  | r :: rest =>
      saleEntry txid now oid uid r :: saleEntriesFrom (txid + 1) now oid uid rest

/-- The RELEASE rows `releaseLoop` inserts. -/
def releaseEntriesFrom (txid now oid : Nat) (uid : Option Nat) :
    List OrderItemRow → List InventoryTransaction
  | [] => []
  | r :: rest =>
      releaseEntry txid now oid uid r ::
        releaseEntriesFrom (txid + 1) now oid uid rest

/-- The RESERVE rows `reserveLoop` inserts. -/
def reserveEntriesFrom (txid now oid : Nat) :
    List OrderItem → List InventoryTransaction
  | [] => []
  | it :: rest =>
      reserveEntry txid now oid it :: reserveEntriesFrom (txid + 1) now oid rest

/-- The order_items rows `create_order` inserts for order `oid`. -/
def itemRows (oid : Nat) (items : List OrderItem) : List OrderItemRow :=
  items.map (fun it =>
    { order_id := oid, product_id := it.product_id,
      quantity := it.quantity, unit_price := it.unit_price })

/-- Sum of the quantities of product `pid`'s audit entries of type `tt`. -/
def sumType : List InventoryTransaction → Nat → TransactionType → Int
  | [], _, _ => 0
  | t :: rest, pid, tt =>
      (if t.product_id = pid ∧ t.transaction_type = tt then t.quantity else 0)
        + sumType rest pid tt

/-- The spec's audit-reconciliation property for product `pid`:
`stock = ΣRESTOCK − ΣSALE` and `reserved = ΣRESERVE − ΣRELEASE − ΣSALE`
over the product's transaction history (vacuous for an absent product). -/
def reconciles (s : DBState) (pid : Nat) : Bool :=
  match lookupProduct s.products pid with
  | none => true
  | some p =>
      p.stock_quantity =
          sumType s.transactions pid .restock - sumType s.transactions pid .sale
        ∧ p.reserved_quantity =
            sumType s.transactions pid .reserve
              - sumType s.transactions pid .release
              - sumType s.transactions pid .sale

/-- Argument well-formedness of one public operation: non-negative initial
stock and non-negative quantities (the source never checks these). -/
def opWF : Op → Prop
  | .createProduct _ _ _ st _ => 0 ≤ st
  | .restock _ q _ => 0 ≤ q
  | .reserve _ q _ => 0 ≤ q
  | .release _ q _ => 0 ≤ q
  | .sell _ q _ => 0 ≤ q
  | .createOrder _ items => ∀ it ∈ items, 0 ≤ it.quantity
  | .updateOrderStatus _ _ _ => True

instance : DecidablePred opWF := fun op => by
  cases op <;> unfold opWF <;> infer_instance

/-- Auxiliary invariant carried through the reachability induction: every
product satisfies the reserved/stock invariant, stored order-item quantities
are non-negative, product ids are pairwise distinct and below the
auto-increment counter. -/
def fullInv (s : DBState) : Prop :=
  stateInv s
    ∧ (∀ r ∈ s.order_items, 0 ≤ r.quantity)
    ∧ (s.products.map Product.id).Nodup
    ∧ (∀ p ∈ s.products, p.id < s.next_product_id)

/-! ### Products-level projections of the three loops (proof helpers: each
is the action of the corresponding loop on the `products` table alone). -/

/-- What `saleLoop` does to the products table. -/
def salesFold (ps : List Product) (now : Nat) :
    List OrderItemRow → List Product
  | [] => ps
  | r :: rest =>
      salesFold
        (match lookupProduct ps r.product_id with
         | some p =>
             if p.reserved_quantity ≥ r.quantity then
               updateProduct ps r.product_id (fun q =>
                 { q with stock_quantity := q.stock_quantity - r.quantity,
                          reserved_quantity := q.reserved_quantity - r.quantity,
                          updated_at := now })
             else ps
         | none => ps) now rest

/-- What `releaseLoop` does to the products table. -/
def releasesFold (ps : List Product) (now : Nat) :
    List OrderItemRow → List Product
  | [] => ps
  | r :: rest =>
      releasesFold
        (match lookupProduct ps r.product_id with
         | some p =>
             if p.reserved_quantity ≥ r.quantity then
               updateProduct ps r.product_id (fun q =>
                 { q with reserved_quantity := q.reserved_quantity - r.quantity,
                          updated_at := now })
             else ps
         | none => ps) now rest

/-- What `reserveLoop` does to the products table (`none` = rollback). -/
def reservesFold (ps : List Product) (now : Nat) :
    List OrderItem → Option (List Product)
  | [] => some ps
  | it :: rest =>
      match lookupProduct ps it.product_id with
      | none => none
      | some p =>
          if p.stock_quantity - p.reserved_quantity < it.quantity then none
          else
            reservesFold
              (updateProduct ps it.product_id (fun q =>
                { q with reserved_quantity := q.reserved_quantity + it.quantity,
                         updated_at := now })) now rest

/-! ## Concrete states used by counterexamples and witnesses. -/

/-- A product with stock 10, nothing reserved, low-stock threshold 5. -/
def demoProduct : Product :=
  { id := 1, name := "P", description := "", price := 1,
    stock_quantity := 10, reserved_quantity := 0, low_stock_threshold := 5,
    updated_at := 0 }

/-- Order 1, PLACED, no timestamps. -/
def demoOrder : OrderRow :=
  { id := 1, customer_id := 1, status := .placed,
    created_at := 0, updated_at := 0, paid_at := none, delivered_at := none }

/-- Order 1's single item: 7 units of product 1. -/
def demoItemRow : OrderItemRow :=
  { order_id := 1, product_id := 1, quantity := 7, unit_price := 1 }

/-- Scenario base state: product 1 (stock 10, reserved 0, threshold 5) and
PLACED order 1 over 7 units of it; the clock reads 3. -/
def demoState : DBState :=
  { products := [demoProduct], orders := [demoOrder],
    order_items := [demoItemRow], transactions := [],
    next_product_id := 2, next_order_id := 2, next_tx_id := 1, now := 3 }

/-- `demoState` after `reserve_stock(1, 7, order 1)`. -/
def demoAfterReserve : DBState := (reserve_stock demoState 1 7 1).1

/-- `demoAfterReserve` after `update_order_status(1, PAID)`. -/
def demoAfterPaid : DBState :=
  (update_order_status demoAfterReserve 1 .paid none).1

/-- Order 1 in the CANCELLED state. -/
def cancelledOrder : OrderRow :=
  { id := 1, customer_id := 1, status := .cancelled,
    created_at := 0, updated_at := 0, paid_at := none, delivered_at := none }

/-- A state whose only order is CANCELLED (and has no items). -/
def cancelledState : DBState :=
  { products := [], orders := [cancelledOrder], order_items := [],
    transactions := [], next_product_id := 1, next_order_id := 2,
    next_tx_id := 1, now := 4 }

/-- A CANCELLED order over 5 units of product 1, whose reservation has
already been released (reserved_quantity = 0). -/
def staleState : DBState :=
  { products := [{ demoProduct with low_stock_threshold := 3 }],
    orders := [cancelledOrder],
    order_items := [{ order_id := 1, product_id := 1, quantity := 5,
                      unit_price := 1 }],
    transactions := [], next_product_id := 2, next_order_id := 2,
    next_tx_id := 1, now := 4 }

/-- The operation sequence exhibiting the audit-reconciliation failure:
create a product with 10 units, place an order for 5 (reserving them),
cancel it (releasing them), then ask the same order to become PAID. -/
def c7seq : List Op :=
  [ .createProduct "x" "" 1 10 3,
    .createOrder 1 [{ product_id := 1, quantity := 5, unit_price := 1 }],
    .updateOrderStatus 1 .cancelled none,
    .updateOrderStatus 1 .paid none ]

/-! ## Basic lookup/update lemmas. -/

theorem lookupProduct_id {ps : List Product} {pid : Nat} {p : Product}
    (h : lookupProduct ps pid = some p) : p.id = pid := by
  have := List.find?_some h
  simpa using this

theorem lookupProduct_updateProduct (ps : List Product) (pid qid : Nat)
    (f : Product → Product) (hf : ∀ p, (f p).id = p.id) :
    lookupProduct (updateProduct ps pid f) qid
      = (lookupProduct ps qid).map (fun p => if p.id = pid then f p else p) := by
  induction ps with
  | nil => rfl
  | cons p rest ih =>
    simp only [lookupProduct, updateProduct, List.map_cons] at ih ⊢
    by_cases h2 : p.id = pid
    · by_cases h1 : p.id = qid
      · rw [if_pos h2, List.find?_cons_of_pos _ (by simp [hf p, h1]),
          List.find?_cons_of_pos _ (by simp [h1])]
        simp [h2]
      · rw [if_pos h2, List.find?_cons_of_neg _ (by simp [hf p, h1]),
          List.find?_cons_of_neg _ (by simp [h1])]
        exact ih
    · by_cases h1 : p.id = qid
      · rw [if_neg h2, List.find?_cons_of_pos _ (by simp [h1]),
          List.find?_cons_of_pos _ (by simp [h1])]
        simp [h2]
      · rw [if_neg h2, List.find?_cons_of_neg _ (by simp [h1]),
          List.find?_cons_of_neg _ (by simp [h1])]
        exact ih

theorem updateProduct_ids (ps : List Product) (pid : Nat)
    (f : Product → Product) (hf : ∀ p, (f p).id = p.id) :
    (updateProduct ps pid f).map Product.id = ps.map Product.id := by
  induction ps with
  | nil => rfl
  | cons p rest ih =>
    simp only [updateProduct, List.map_cons] at ih ⊢
    by_cases h : p.id = pid
    · rw [if_pos h, ih, hf p]
    · rw [if_neg h, ih]

theorem lookupProduct_eq_none {ps : List Product} {pid : Nat} :
    lookupProduct ps pid = none ↔ ∀ p ∈ ps, p.id ≠ pid := by
  simp [lookupProduct, List.find?_eq_none]

theorem updateProduct_of_none {ps : List Product} {pid : Nat}
    {f : Product → Product} (h : lookupProduct ps pid = none) :
    updateProduct ps pid f = ps := by
  rw [lookupProduct_eq_none] at h
  induction ps with
  | nil => rfl
  | cons p rest ih =>
    have hp := h p (by simp)
    simp [updateProduct, hp] at ih ⊢
    exact ih fun q hq => h q (by simp [hq])

theorem lookupOrder_map_if (os : List OrderRow) (oid qid : Nat)
    (g : OrderRow → OrderRow) (hg : ∀ o, (g o).id = o.id) :
    lookupOrder (os.map fun o => if o.id = oid then g o else o) qid
      = (lookupOrder os qid).map (fun o => if o.id = oid then g o else o) := by
  induction os with
  | nil => rfl
  | cons o rest ih =>
    simp only [lookupOrder, List.map_cons] at ih ⊢
    by_cases h2 : o.id = oid
    · by_cases h1 : o.id = qid
      · rw [if_pos h2, List.find?_cons_of_pos _ (by simp [hg o, h1]),
          List.find?_cons_of_pos _ (by simp [h1])]
        simp [h2]
      · rw [if_pos h2, List.find?_cons_of_neg _ (by simp [hg o, h1]),
          List.find?_cons_of_neg _ (by simp [h1])]
        exact ih
    · by_cases h1 : o.id = qid
      · rw [if_neg h2, List.find?_cons_of_pos _ (by simp [h1]),
          List.find?_cons_of_pos _ (by simp [h1])]
        simp [h2]
      · rw [if_neg h2, List.find?_cons_of_neg _ (by simp [h1]),
          List.find?_cons_of_neg _ (by simp [h1])]
        exact ih

theorem lookupOrder_id {os : List OrderRow} {oid : Nat} {o : OrderRow}
    (h : lookupOrder os oid = some o) : o.id = oid := by
  have := List.find?_some h
  simpa using this

/-! ## Frame lemmas for the update_order_status loops. -/

theorem saleLoop_frame (oid : Nat) (uid : Option Nat) :
    ∀ (rows : List OrderItemRow) (w : DBState),
      (saleLoop w oid uid rows).orders = w.orders
        ∧ (saleLoop w oid uid rows).order_items = w.order_items
        ∧ (saleLoop w oid uid rows).now = w.now := by
  intro rows
  induction rows with
  | nil => exact fun w => ⟨rfl, rfl, rfl⟩
  | cons r rest ih =>
    intro w
    simpa [saleLoop] using ih _

theorem releaseLoop_frame (oid : Nat) (uid : Option Nat) :
    ∀ (rows : List OrderItemRow) (w : DBState),
      (releaseLoop w oid uid rows).orders = w.orders
        ∧ (releaseLoop w oid uid rows).order_items = w.order_items
        ∧ (releaseLoop w oid uid rows).now = w.now := by
  intro rows
  induction rows with
  | nil => exact fun w => ⟨rfl, rfl, rfl⟩
  | cons r rest ih =>
    intro w
    simpa [releaseLoop] using ih _

/-! ## Equation lemmas for the single-product primitives. -/

theorem restock_product_none {s : DBState} {pid : Nat} (qty : Int)
    (uid : Option Nat) (h : lookupProduct s.products pid = none) :
    restock_product s pid qty uid = (s, false) := by
  simp [restock_product, restockTx, h]

theorem restock_product_some {s : DBState} {pid : Nat} {p : Product}
    (qty : Int) (uid : Option Nat) (h : lookupProduct s.products pid = some p) :
    (restock_product s pid qty uid).2 = true
      ∧ (restock_product s pid qty uid).1.products
          = updateProduct s.products pid (fun q =>
              { q with stock_quantity := q.stock_quantity + qty,
                       updated_at := s.now })
      ∧ (restock_product s pid qty uid).1.transactions
          = s.transactions
              ++ [{ id := s.next_tx_id, product_id := pid,
                    transaction_type := .restock, quantity := qty,
                    order_id := none, user_id := uid, notes := "",
                    timestamp := s.now }]
      ∧ (restock_product s pid qty uid).1.orders = s.orders
      ∧ (restock_product s pid qty uid).1.order_items = s.order_items
      ∧ (restock_product s pid qty uid).1.next_product_id = s.next_product_id
      ∧ (restock_product s pid qty uid).1.now = s.now := by
  simp [restock_product, restockTx, h, create_inventory_transaction]

theorem reserve_stock_none {s : DBState} {pid : Nat} (qty : Int) (oid : Nat)
    (h : lookupProduct s.products pid = none) :
    reserve_stock s pid qty oid = (s, false) := by
  simp [reserve_stock, reserveTx, h]

theorem reserve_stock_fail {s : DBState} {pid : Nat} {p : Product} (qty : Int)
    (oid : Nat) (h : lookupProduct s.products pid = some p)
    (hq : p.stock_quantity - p.reserved_quantity < qty) :
    reserve_stock s pid qty oid = (s, false) := by
  simp [reserve_stock, reserveTx, h, not_le.mpr hq]

theorem reserve_stock_succ {s : DBState} {pid : Nat} {p : Product} {qty : Int}
    (oid : Nat) (h : lookupProduct s.products pid = some p)
    (hq : qty ≤ p.stock_quantity - p.reserved_quantity) :
    (reserve_stock s pid qty oid).2 = true
      ∧ (reserve_stock s pid qty oid).1.products
          = updateProduct s.products pid (fun q =>
              { q with reserved_quantity := q.reserved_quantity + qty,
                       updated_at := s.now })
      ∧ (reserve_stock s pid qty oid).1.transactions
          = s.transactions
              ++ [{ id := s.next_tx_id, product_id := pid,
                    transaction_type := .reserve, quantity := qty,
                    order_id := some oid, user_id := none, notes := "",
                    timestamp := s.now }]
      ∧ (reserve_stock s pid qty oid).1.orders = s.orders
      ∧ (reserve_stock s pid qty oid).1.order_items = s.order_items
      ∧ (reserve_stock s pid qty oid).1.next_product_id = s.next_product_id
      ∧ (reserve_stock s pid qty oid).1.now = s.now := by
  simp [reserve_stock, reserveTx, h, hq, create_inventory_transaction]

theorem release_stock_none {s : DBState} {pid : Nat} (qty : Int) (oid : Nat)
    (h : lookupProduct s.products pid = none) :
    release_stock s pid qty oid = (s, false) := by
  simp [release_stock, releaseTx, h]

theorem release_stock_fail {s : DBState} {pid : Nat} {p : Product} (qty : Int)
    (oid : Nat) (h : lookupProduct s.products pid = some p)
    (hq : p.reserved_quantity < qty) :
    release_stock s pid qty oid = (s, false) := by
  simp [release_stock, releaseTx, h, not_le.mpr hq]

theorem release_stock_succ {s : DBState} {pid : Nat} {p : Product} {qty : Int}
    (oid : Nat) (h : lookupProduct s.products pid = some p)
    (hq : qty ≤ p.reserved_quantity) :
    (release_stock s pid qty oid).2 = true
      ∧ (release_stock s pid qty oid).1.products
          = updateProduct s.products pid (fun q =>
              { q with reserved_quantity := q.reserved_quantity - qty,
                       updated_at := s.now })
      ∧ (release_stock s pid qty oid).1.transactions
          = s.transactions
              ++ [{ id := s.next_tx_id, product_id := pid,
                    transaction_type := .release, quantity := qty,
                    order_id := some oid, user_id := none, notes := "",
                    timestamp := s.now }]
      ∧ (release_stock s pid qty oid).1.orders = s.orders
      ∧ (release_stock s pid qty oid).1.order_items = s.order_items
      ∧ (release_stock s pid qty oid).1.next_product_id = s.next_product_id
      ∧ (release_stock s pid qty oid).1.now = s.now := by
  simp [release_stock, releaseTx, h, hq, create_inventory_transaction]

theorem sell_product_none {s : DBState} {pid : Nat} (qty : Int) (oid : Nat)
    (h : lookupProduct s.products pid = none) :
    sell_product s pid qty oid = (s, false) := by
  simp [sell_product, sellTx, h]

theorem sell_product_fail {s : DBState} {pid : Nat} {p : Product} (qty : Int)
    (oid : Nat) (h : lookupProduct s.products pid = some p)
    (hq : p.reserved_quantity < qty) :
    sell_product s pid qty oid = (s, false) := by
  simp [sell_product, sellTx, h, not_le.mpr hq]

theorem sell_product_succ {s : DBState} {pid : Nat} {p : Product} {qty : Int}
    (oid : Nat) (h : lookupProduct s.products pid = some p)
    (hq : qty ≤ p.reserved_quantity) :
    (sell_product s pid qty oid).2 = true
      ∧ (sell_product s pid qty oid).1.products
          = updateProduct s.products pid (fun q =>
              { q with stock_quantity := q.stock_quantity - qty,
                       reserved_quantity := q.reserved_quantity - qty,
                       updated_at := s.now })
      ∧ (sell_product s pid qty oid).1.transactions
          = s.transactions
              ++ [{ id := s.next_tx_id, product_id := pid,
                    transaction_type := .sale, quantity := qty,
                    order_id := some oid, user_id := none, notes := "",
                    timestamp := s.now }]
      ∧ (sell_product s pid qty oid).1.orders = s.orders
      ∧ (sell_product s pid qty oid).1.order_items = s.order_items
      ∧ (sell_product s pid qty oid).1.next_product_id = s.next_product_id
      ∧ (sell_product s pid qty oid).1.now = s.now := by
  simp [sell_product, sellTx, h, hq, create_inventory_transaction]

/-! ## Claim C9: the concrete four-step scenario. -/

/-- C9: from product 1 with stock 10 / reserved 0 / threshold 5 and PLACED
order 1 over 7 units, `reserve_stock(1,7,order 1)` succeeds leaving
available 3; `reserve_stock(1,5,order 2)` fails and changes nothing;
transitioning order 1 to PAID leaves stock 3 / reserved 0 with paid_at set;
and `is_low_stock` then holds because stock 3 ≤ threshold 5. -/
theorem C9_scenario :
    (reserve_stock demoState 1 7 1).2 = true
      ∧ (lookupProduct demoAfterReserve.products 1).map
          Product.available_quantity = some 3
      ∧ (reserve_stock demoAfterReserve 1 5 2).2 = false
      ∧ (reserve_stock demoAfterReserve 1 5 2).1 = demoAfterReserve
      ∧ (update_order_status demoAfterReserve 1 .paid none).2 = true
      ∧ (lookupProduct demoAfterPaid.products 1).map
          (fun p => (p.stock_quantity, p.reserved_quantity)) = some (3, 0)
      ∧ (lookupOrder demoAfterPaid.orders 1).map OrderRow.paid_at
          = some (some 3)
      ∧ (lookupProduct demoAfterPaid.products 1).map Product.is_low_stock
          = some true := by
  decide

/-! ## Claim C7: the ledger does not always reconcile with the audit trail. -/

/-- C7: after creating product 1 with 10 units, placing an order for 5,
cancelling it and then asking the cancelled order to become PAID, the code
appends a SALE(5) audit entry although the guarded stock UPDATE matched no
row: stock_quantity stays 10 while ΣRESTOCK − ΣSALE = 5, so the claimed
reconciliation fails in a reachable state. -/
theorem C7_reconciliation_fails :
    (lookupProduct (runOps initState c7seq).products 1).map
        (fun p => (p.stock_quantity, p.reserved_quantity)) = some (10, 0)
      ∧ sumType (runOps initState c7seq).transactions 1 .restock
          - sumType (runOps initState c7seq).transactions 1 .sale = 5
      ∧ reconciles (runOps initState c7seq) 1 = false := by
  decide

/-! ## Claim C1. -/

/-- C1 counterexample: order 1 is CANCELLED, yet requesting PAID is not
rejected — the call returns True and rewrites the order row's status. -/
theorem C1_counterexample :
    (lookupOrder cancelledState.orders 1).map OrderRow.status
        = some .cancelled
      ∧ (update_order_status cancelledState 1 .paid none).2 = true
      ∧ (lookupOrder (update_order_status cancelledState 1 .paid none).1.orders
            1).map OrderRow.status = some .paid := by
  decide

/-- C1 (amended): `update_order_status` checks no transition legality at
all.  It returns False and leaves the state unchanged exactly when the order
id does not exist; for any existing order it returns True and overwrites the
status with the requested one, whatever the current status was. -/
theorem C1_no_legality_check (s : DBState) (oid : Nat) (st : OrderStatus)
    (uid : Option Nat) :
    (lookupOrder s.orders oid = none →
        update_order_status s oid st uid = (s, false))
      ∧ (∀ o, lookupOrder s.orders oid = some o →
          (update_order_status s oid st uid).2 = true
            ∧ (lookupOrder (update_order_status s oid st uid).1.orders
                  oid).map OrderRow.status = some st) := by
  constructor
  · intro h
    simp [update_order_status, h]
  · intro o h
    constructor
    · cases st <;> simp [update_order_status, h]
    · have hsale := saleLoop_frame oid uid (itemsOfOrder s oid) s
      have hrel := releaseLoop_frame oid uid (itemsOfOrder s oid) s
      cases st
      case placed =>
        simp only [update_order_status, h]
        rw [lookupOrder_map_if s.orders oid oid
          (applyStatusRow .placed s.now) (fun q => rfl)]
        simp [h, lookupOrder_id h, applyStatusRow]
      case paid =>
        simp only [update_order_status, h]
        rw [hsale.1, hsale.2.2, lookupOrder_map_if s.orders oid oid
          (applyStatusRow .paid s.now) (fun q => rfl)]
        simp [h, lookupOrder_id h, applyStatusRow]
      case delivered =>
        simp only [update_order_status, h]
        rw [lookupOrder_map_if s.orders oid oid
          (applyStatusRow .delivered s.now) (fun q => rfl)]
        simp [h, lookupOrder_id h, applyStatusRow]
      case cancelled =>
        simp only [update_order_status, h]
        rw [hrel.1, hrel.2.2, lookupOrder_map_if s.orders oid oid
          (applyStatusRow .cancelled s.now) (fun q => rfl)]
        simp [h, lookupOrder_id h, applyStatusRow]

/-- Witness for C1: the two branches at concrete inputs. -/
theorem C1_no_legality_check_witness :
    update_order_status initState 1 .paid none = (initState, false)
      ∧ (update_order_status cancelledState 1 .paid none).2 = true :=
  ⟨(C1_no_legality_check initState 1 .paid none).1 (by decide),
   ((C1_no_legality_check cancelledState 1 .paid none).2 cancelledOrder
      (by decide)).1⟩

/-! ## Claim C3. -/

/-- C3 counterexample: order 1 is CANCELLED (not PLACED) over 5 units of
product 1, whose reservation is already gone (reserved_quantity = 0, so the
finalize-sale precondition is violated).  Requesting PAID neither rejects
nor rolls back: it returns True, leaves the product untouched, still
appends a SALE entry, sets the status to PAID and sets paid_at. -/
theorem C3_counterexample :
    (lookupOrder staleState.orders 1).map OrderRow.status = some .cancelled
      ∧ (update_order_status staleState 1 .paid none).2 = true
      ∧ (lookupProduct (update_order_status staleState 1 .paid none).1.products
            1).map (fun p => (p.stock_quantity, p.reserved_quantity))
          = some (10, 0)
      ∧ (update_order_status staleState 1 .paid none).1.transactions.map
          InventoryTransaction.transaction_type = [.sale]
      ∧ (lookupOrder (update_order_status staleState 1 .paid none).1.orders
            1).map (fun o => (o.status, o.paid_at))
          = some (.paid, some 4) := by
  decide

/-! ## Claim C4. -/

/-- C4 counterexample: `restock_product` accepts the non-positive quantity
−3 instead of rejecting it: it returns True, decrements the stock from 10
to 7 and still writes a RESTOCK audit entry. -/
theorem C4_counterexample :
    (restock_product demoState 1 (-3) none).2 = true
      ∧ (lookupProduct (restock_product demoState 1 (-3) none).1.products
            1).map Product.stock_quantity = some 7
      ∧ (restock_product demoState 1 (-3) none).1.transactions.map
          (fun t => (t.transaction_type, t.quantity)) = [(.restock, -3)] := by
  decide

/-- C4 (amended): `restock_product` never validates the quantity.  For any
quantity whatsoever (positive, zero or negative), if the product exists the
call succeeds, adds exactly `quantity` to stock_quantity and appends exactly
one RESTOCK transaction; only a missing product makes it fail, and then
nothing changes. -/
theorem C4_restock_behavior (s : DBState) (pid : Nat) (qty : Int)
    (uid : Option Nat) :
    (∀ p, lookupProduct s.products pid = some p →
        (restock_product s pid qty uid).2 = true
          ∧ (lookupProduct (restock_product s pid qty uid).1.products pid).map
              Product.stock_quantity = some (p.stock_quantity + qty)
          ∧ (restock_product s pid qty uid).1.transactions
              = s.transactions
                  ++ [⟨s.next_tx_id, pid, .restock, qty, none, uid, "", s.now⟩])
      ∧ (lookupProduct s.products pid = none →
          restock_product s pid qty uid = (s, false)) := by
  constructor
  · intro p hp
    obtain ⟨h1, h2, h3, _⟩ := restock_product_some qty uid hp
    refine ⟨h1, ?_, h3⟩
    rw [h2, lookupProduct_updateProduct s.products pid pid
      (fun q => { q with stock_quantity := q.stock_quantity + qty,
                         updated_at := s.now })
      (fun q => rfl)]
    simp [hp, lookupProduct_id hp]
  · exact restock_product_none qty uid

/-- Witness for C4 (amended): restock of 4 units on the demo product, and a
restock of a missing product. -/
theorem C4_restock_behavior_witness :
    (restock_product demoState 1 4 none).2 = true
      ∧ restock_product demoState 9 4 none = (demoState, false) :=
  ⟨((C4_restock_behavior demoState 1 4 none).1 demoProduct (by decide)).1,
   (C4_restock_behavior demoState 9 4 none).2 (by decide)⟩

/-! ## Claim C6: the invariant is not preserved for unchecked arguments. -/

/-- C6 counterexample: the reachable state obtained by creating a product
with 10 units and then restocking it by −11 has stock_quantity = −1 <
reserved_quantity = 0, so `0 ≤ reserved ≤ stock` fails in a state reachable
by public operations. -/
theorem C6_counterexample :
    (lookupProduct (runOps initState
          [Op.createProduct "x" "" 1 10 3, Op.restock 1 (-11) none]).products
        1).map (fun p => (p.stock_quantity, p.reserved_quantity))
        = some (-1, 0)
      ∧ ¬ stateInv (runOps initState
          [Op.createProduct "x" "" 1 10 3, Op.restock 1 (-11) none]) := by
  constructor
  · decide
  · decide

/-! ## Claim C10. -/

/-- C10: `reserve_stock`, `release_stock` and `sell_product` return a plain
boolean; the False cases are exactly "product missing" or "quantity
precondition fails" (available < qty for reserve, reserved < qty for
release/sell) — indistinguishable from each other — and every False case
leaves the state completely unchanged. -/
theorem C10_boolean_interface (s : DBState) (pid : Nat) (qty : Int)
    (oid : Nat) :
    ((reserve_stock s pid qty oid).2 = false ↔
        lookupProduct s.products pid = none
          ∨ ∃ p, lookupProduct s.products pid = some p
              ∧ p.stock_quantity - p.reserved_quantity < qty)
      ∧ ((reserve_stock s pid qty oid).2 = false →
          (reserve_stock s pid qty oid).1 = s)
      ∧ ((release_stock s pid qty oid).2 = false ↔
          lookupProduct s.products pid = none
            ∨ ∃ p, lookupProduct s.products pid = some p
                ∧ p.reserved_quantity < qty)
      ∧ ((release_stock s pid qty oid).2 = false →
          (release_stock s pid qty oid).1 = s)
      ∧ ((sell_product s pid qty oid).2 = false ↔
          lookupProduct s.products pid = none
            ∨ ∃ p, lookupProduct s.products pid = some p
                ∧ p.reserved_quantity < qty)
      ∧ ((sell_product s pid qty oid).2 = false →
          (sell_product s pid qty oid).1 = s) := by
  refine ⟨?_, ?_, ?_, ?_, ?_, ?_⟩
  · rcases hL : lookupProduct s.products pid with _ | p
    · simp [reserve_stock_none qty oid hL]
    · by_cases hq : p.stock_quantity - p.reserved_quantity < qty
      · simp [reserve_stock_fail qty oid hL hq, hL, hq]
      · simp [(reserve_stock_succ oid hL (not_lt.mp hq)).1, hL, hq]
  · intro hf
    rcases hL : lookupProduct s.products pid with _ | p
    · simp [reserve_stock_none qty oid hL]
    · by_cases hq : p.stock_quantity - p.reserved_quantity < qty
      · simp [reserve_stock_fail qty oid hL hq]
      · rw [(reserve_stock_succ oid hL (not_lt.mp hq)).1] at hf
        exact absurd hf (by simp)
  · rcases hL : lookupProduct s.products pid with _ | p
    · simp [release_stock_none qty oid hL]
    · by_cases hq : p.reserved_quantity < qty
      · simp [release_stock_fail qty oid hL hq, hL, hq]
      · simp [(release_stock_succ oid hL (not_lt.mp hq)).1, hL, hq]
  · intro hf
    rcases hL : lookupProduct s.products pid with _ | p
    · simp [release_stock_none qty oid hL]
    · by_cases hq : p.reserved_quantity < qty
      · simp [release_stock_fail qty oid hL hq]
      · rw [(release_stock_succ oid hL (not_lt.mp hq)).1] at hf
        exact absurd hf (by simp)
  · rcases hL : lookupProduct s.products pid with _ | p
    · simp [sell_product_none qty oid hL]
    · by_cases hq : p.reserved_quantity < qty
      · simp [sell_product_fail qty oid hL hq, hL, hq]
      · simp [(sell_product_succ oid hL (not_lt.mp hq)).1, hL, hq]
  · intro hf
    rcases hL : lookupProduct s.products pid with _ | p
    · simp [sell_product_none qty oid hL]
    · by_cases hq : p.reserved_quantity < qty
      · simp [sell_product_fail qty oid hL hq]
      · rw [(sell_product_succ oid hL (not_lt.mp hq)).1] at hf
        exact absurd hf (by simp)

/-- Witness for C10: a reservation of 11 > available 10 fails and leaves the
demo state untouched. -/
theorem C10_boolean_interface_witness :
    (reserve_stock demoState 1 11 1).2 = false
      ∧ (reserve_stock demoState 1 11 1).1 = demoState := by
  have h := C10_boolean_interface demoState 1 11 1
  have hf : (reserve_stock demoState 1 11 1).2 = false :=
    h.1.mpr (Or.inr ⟨demoProduct, by decide, by decide⟩)
  exact ⟨hf, h.2.1 hf⟩

/-! ## Claim C5: the audit entry is not written atomically with the
mutation for the single-product primitives. -/

/-- C5 counterexample: restocking the demo product by 4 passes through two
commits; the state after the first commit already shows stock 14 but still
has the old (empty) transaction log, an observable intermediate state the
claim says cannot exist. -/
theorem C5_counterexample :
    restockCommits demoState 1 4 none
        = [(restockTx demoState 1 4).1, (restock_product demoState 1 4 none).1]
      ∧ (lookupProduct (restockTx demoState 1 4).1.products 1).map
          Product.stock_quantity = some 14
      ∧ (restockTx demoState 1 4).1.transactions = demoState.transactions
      ∧ (restock_product demoState 1 4 none).1.transactions
          ≠ demoState.transactions := by
  decide

/-- C5 (amended): each successful restock / reserve / release / finalize-sale
commits in two separate transactions: the first commit applies the
stock/reserved mutation and leaves the audit log untouched, and only the
second commit (a separate `create_inventory_transaction` connection) appends
the audit entry — exactly one per mutation.  So an intermediate state in
which the mutation has committed without its audit entry is observable. -/
theorem C5_audit_split (s : DBState) (pid : Nat) (qty : Int) (uid : Option Nat)
    (oid : Nat) (p : Product) (h : lookupProduct s.products pid = some p) :
    (restockCommits s pid qty uid
          = [(restockTx s pid qty).1, (restock_product s pid qty uid).1]
        ∧ (restockTx s pid qty).1.transactions = s.transactions
        ∧ (restockTx s pid qty).1.products
            = (restock_product s pid qty uid).1.products
        ∧ (restock_product s pid qty uid).1.transactions
            = s.transactions
                ++ [⟨s.next_tx_id, pid, .restock, qty, none, uid, "", s.now⟩])
      ∧ (qty ≤ p.stock_quantity - p.reserved_quantity →
          reserveCommits s pid qty oid
              = [(reserveTx s pid qty).1, (reserve_stock s pid qty oid).1]
            ∧ (reserveTx s pid qty).1.transactions = s.transactions
            ∧ (reserveTx s pid qty).1.products
                = (reserve_stock s pid qty oid).1.products
            ∧ (reserve_stock s pid qty oid).1.transactions
                = s.transactions
                    ++ [⟨s.next_tx_id, pid, .reserve, qty, some oid, none, "",
                          s.now⟩])
      ∧ (qty ≤ p.reserved_quantity →
          releaseCommits s pid qty oid
              = [(releaseTx s pid qty).1, (release_stock s pid qty oid).1]
            ∧ (releaseTx s pid qty).1.transactions = s.transactions
            ∧ (releaseTx s pid qty).1.products
                = (release_stock s pid qty oid).1.products
            ∧ (release_stock s pid qty oid).1.transactions
                = s.transactions
                    ++ [⟨s.next_tx_id, pid, .release, qty, some oid, none, "",
                          s.now⟩])
      ∧ (qty ≤ p.reserved_quantity →
          sellCommits s pid qty oid
              = [(sellTx s pid qty).1, (sell_product s pid qty oid).1]
            ∧ (sellTx s pid qty).1.transactions = s.transactions
            ∧ (sellTx s pid qty).1.products
                = (sell_product s pid qty oid).1.products
            ∧ (sell_product s pid qty oid).1.transactions
                = s.transactions
                    ++ [⟨s.next_tx_id, pid, .sale, qty, some oid, none, "",
                          s.now⟩]) := by
  refine ⟨?_, fun hq => ?_, fun hq => ?_, fun hq => ?_⟩
  · refine ⟨?_, ?_, ?_, (restock_product_some qty uid h).2.2.1⟩
    · simp [restockCommits, restock_product, restockTx, h]
    · simp [restockTx, h]
    · simp [restock_product, restockTx, h, create_inventory_transaction]
  · refine ⟨?_, ?_, ?_, (reserve_stock_succ oid h hq).2.2.1⟩
    · simp [reserveCommits, reserve_stock, reserveTx, h, hq]
    · simp [reserveTx, h, hq]
    · simp [reserve_stock, reserveTx, h, hq, create_inventory_transaction]
  · refine ⟨?_, ?_, ?_, (release_stock_succ oid h hq).2.2.1⟩
    · simp [releaseCommits, release_stock, releaseTx, h, hq]
    · simp [releaseTx, h, hq]
    · simp [release_stock, releaseTx, h, hq, create_inventory_transaction]
  · refine ⟨?_, ?_, ?_, (sell_product_succ oid h hq).2.2.1⟩
    · simp [sellCommits, sell_product, sellTx, h, hq]
    · simp [sellTx, h, hq]
    · simp [sell_product, sellTx, h, hq, create_inventory_transaction]

/-- Witness for C5 (amended): the demo product, quantity 4 for restock and 7
for the reservation guard. -/
theorem C5_audit_split_witness :
    (restockTx demoState 1 4).1.transactions = demoState.transactions
      ∧ (reserveTx demoState 1 7).1.transactions = demoState.transactions :=
  ⟨((C5_audit_split demoState 1 4 none 1 demoProduct (by decide)).1).2.1,
   (((C5_audit_split demoState 1 7 none 1 demoProduct (by decide)).2.1)
      (by decide)).2.1⟩

/-! ## Arithmetic and characterization lemmas for the status-change loops. -/

theorem rowSum_nonneg (rows : List OrderItemRow) (pid : Nat)
    (h : ∀ r ∈ rows, 0 ≤ r.quantity) : 0 ≤ rowSum rows pid := by
  induction rows with
  | nil => simp [rowSum]
  | cons r rest ih =>
    have h0 := h r (by simp)
    have tail := ih (fun x hx => h x (by simp [hx]))
    by_cases hpid : r.product_id = pid <;> simp [rowSum, hpid] <;> omega

theorem itemSum_nonneg (items : List OrderItem) (pid : Nat)
    (h : ∀ it ∈ items, 0 ≤ it.quantity) : 0 ≤ itemSum items pid := by
  induction items with
  | nil => simp [itemSum]
  | cons it rest ih =>
    have h0 := h it (by simp)
    have tail := ih (fun x hx => h x (by simp [hx]))
    by_cases hpid : it.product_id = pid <;> simp [itemSum, hpid] <;> omega

theorem saleLoop_transactions (oid : Nat) (uid : Option Nat) :
    ∀ (rows : List OrderItemRow) (w : DBState),
      (saleLoop w oid uid rows).transactions
        = w.transactions ++ saleEntriesFrom w.next_tx_id w.now oid uid rows := by
  intro rows
  induction rows with
  | nil => intro w; simp [saleLoop, saleEntriesFrom]
  | cons r rest ih =>
    intro w
    rw [saleLoop, ih]
    simp [saleEntriesFrom]

theorem releaseLoop_transactions (oid : Nat) (uid : Option Nat) :
    ∀ (rows : List OrderItemRow) (w : DBState),
      (releaseLoop w oid uid rows).transactions
        = w.transactions
            ++ releaseEntriesFrom w.next_tx_id w.now oid uid rows := by
  intro rows
  induction rows with
  | nil => intro w; simp [releaseLoop, releaseEntriesFrom]
  | cons r rest ih =>
    intro w
    rw [releaseLoop, ih]
    simp [releaseEntriesFrom]

theorem saleLoop_products_eq (oid : Nat) (uid : Option Nat) :
    ∀ (rows : List OrderItemRow) (w : DBState),
      (saleLoop w oid uid rows).products = salesFold w.products w.now rows := by
  intro rows
  induction rows with
  | nil => intro w; rfl
  | cons r rest ih =>
    intro w
    simp only [saleLoop, salesFold]
    exact ih _

theorem releaseLoop_products_eq (oid : Nat) (uid : Option Nat) :
    ∀ (rows : List OrderItemRow) (w : DBState),
      (releaseLoop w oid uid rows).products
        = releasesFold w.products w.now rows := by
  intro rows
  induction rows with
  | nil => intro w; rfl
  | cons r rest ih =>
    intro w
    simp only [releaseLoop, releasesFold]
    exact ih _

/-- Per-product effect of the PAID loop when every item's product exists and
the reservations cover all the items: stock and reserved both drop by the
per-product total of the order's items. -/
theorem salesFold_lookup (now : Nat) :
    ∀ (rows : List OrderItemRow) (ps : List Product),
      (∀ r ∈ rows, 0 ≤ r.quantity) →
      (∀ r ∈ rows, ∃ p, lookupProduct ps r.product_id = some p) →
      (∀ pid p, lookupProduct ps pid = some p →
          rowSum rows pid ≤ p.reserved_quantity) →
      ∀ pid, (lookupProduct (salesFold ps now rows) pid).map
            (fun p => (p.stock_quantity, p.reserved_quantity))
          = (lookupProduct ps pid).map
              (fun p => (p.stock_quantity - rowSum rows pid,
                         p.reserved_quantity - rowSum rows pid)) := by
  intro rows
  induction rows with
  | nil =>
    intro ps hq hex hbound pid
    cases hL : lookupProduct ps pid <;> simp [salesFold, rowSum, hL]
  | cons r rest ih =>
    intro ps hq hex hbound pid
    obtain ⟨p0, hp0⟩ := hex r (List.mem_cons_self r rest)
    have hnn : 0 ≤ rowSum rest r.product_id :=
      rowSum_nonneg rest r.product_id
        (fun x hx => hq x (List.mem_cons_of_mem r hx))
    have hb := hbound r.product_id p0 hp0
    rw [show rowSum (r :: rest) r.product_id
        = r.quantity + rowSum rest r.product_id by simp [rowSum]] at hb
    have hg : r.quantity ≤ p0.reserved_quantity := by omega
    have hup := fun qid => lookupProduct_updateProduct ps r.product_id qid
      (fun q =>
        { q with stock_quantity := q.stock_quantity - r.quantity,
                 reserved_quantity := q.reserved_quantity - r.quantity,
                 updated_at := now }) (fun q => rfl)
    rw [show salesFold ps now (r :: rest)
        = salesFold (updateProduct ps r.product_id (fun q =>
            { q with stock_quantity := q.stock_quantity - r.quantity,
                     reserved_quantity := q.reserved_quantity - r.quantity,
                     updated_at := now })) now rest by
      simp [salesFold, hp0, hg]]
    rw [ih (updateProduct ps r.product_id (fun q =>
        { q with stock_quantity := q.stock_quantity - r.quantity,
                 reserved_quantity := q.reserved_quantity - r.quantity,
                 updated_at := now }))
      (fun x hx => hq x (List.mem_cons_of_mem r hx))
      (fun x hx => by
        obtain ⟨px, hpx⟩ := hex x (List.mem_cons_of_mem r hx)
        exact ⟨_, by rw [hup x.product_id, hpx]; rfl⟩)
      (fun qid p' hp' => by
        rw [hup qid] at hp'
        rcases hL : lookupProduct ps qid with _ | q
        · rw [hL] at hp'; cases hp'
        · rw [hL] at hp'
          simp only [Option.map_some'] at hp'
          have hqid : q.id = qid := lookupProduct_id hL
          have hbq := hbound qid q hL
          by_cases hcase : q.id = r.product_id
          · have hpid : qid = r.product_id := by rw [← hqid, hcase]
            subst hpid
            rw [if_pos hcase] at hp'
            cases hp'
            rw [show rowSum (r :: rest) r.product_id
              = r.quantity + rowSum rest r.product_id by simp [rowSum]] at hbq
            show rowSum rest r.product_id
              ≤ q.reserved_quantity - r.quantity
            omega
          · rw [if_neg hcase] at hp'
            cases hp'
            have hne : r.product_id ≠ qid :=
              fun hcon => hcase (hqid.trans hcon.symm)
            rw [show rowSum (r :: rest) qid = rowSum rest qid by
              simp [rowSum, hne]] at hbq
            exact hbq) pid]
    rw [hup pid]
    rcases hL : lookupProduct ps pid with _ | q
    · simp
    · have hqid : q.id = pid := lookupProduct_id hL
      simp only [Option.map_some']
      by_cases hcase : q.id = r.product_id
      · have hpid : pid = r.product_id := by rw [← hqid, hcase]
        subst hpid
        rw [if_pos hcase]
        rw [show rowSum (r :: rest) r.product_id
          = r.quantity + rowSum rest r.product_id by simp [rowSum]]
        simp only [Option.some.injEq, Prod.mk.injEq]
        constructor <;> · show _ = (_ : Int); omega
      · have hne : r.product_id ≠ pid :=
          fun hcon => hcase (hqid.trans hcon.symm)
        rw [if_neg hcase]
        rw [show rowSum (r :: rest) pid = rowSum rest pid by
          simp [rowSum, hne]]

/-- Per-product effect of the CANCELLED loop under intact reservations:
reserved drops by the per-product total, stock is untouched. -/
theorem releasesFold_lookup (now : Nat) :
    ∀ (rows : List OrderItemRow) (ps : List Product),
      (∀ r ∈ rows, 0 ≤ r.quantity) →
      (∀ r ∈ rows, ∃ p, lookupProduct ps r.product_id = some p) →
      (∀ pid p, lookupProduct ps pid = some p →
          rowSum rows pid ≤ p.reserved_quantity) →
      ∀ pid, (lookupProduct (releasesFold ps now rows) pid).map
            (fun p => (p.stock_quantity, p.reserved_quantity))
          = (lookupProduct ps pid).map
              (fun p => (p.stock_quantity,
                         p.reserved_quantity - rowSum rows pid)) := by
  intro rows
  induction rows with
  | nil =>
    intro ps hq hex hbound pid
    cases hL : lookupProduct ps pid <;> simp [releasesFold, rowSum, hL]
  | cons r rest ih =>
    intro ps hq hex hbound pid
    obtain ⟨p0, hp0⟩ := hex r (List.mem_cons_self r rest)
    have hnn : 0 ≤ rowSum rest r.product_id :=
      rowSum_nonneg rest r.product_id
        (fun x hx => hq x (List.mem_cons_of_mem r hx))
    have hb := hbound r.product_id p0 hp0
    rw [show rowSum (r :: rest) r.product_id
        = r.quantity + rowSum rest r.product_id by simp [rowSum]] at hb
    have hg : r.quantity ≤ p0.reserved_quantity := by omega
    have hup := fun qid => lookupProduct_updateProduct ps r.product_id qid
      (fun q =>
        { q with reserved_quantity := q.reserved_quantity - r.quantity,
                 updated_at := now }) (fun q => rfl)
    rw [show releasesFold ps now (r :: rest)
        = releasesFold (updateProduct ps r.product_id (fun q =>
            { q with reserved_quantity := q.reserved_quantity - r.quantity,
                     updated_at := now })) now rest by
      simp [releasesFold, hp0, hg]]
    rw [ih (updateProduct ps r.product_id (fun q =>
        { q with reserved_quantity := q.reserved_quantity - r.quantity,
                 updated_at := now }))
      (fun x hx => hq x (List.mem_cons_of_mem r hx))
      (fun x hx => by
        obtain ⟨px, hpx⟩ := hex x (List.mem_cons_of_mem r hx)
        exact ⟨_, by rw [hup x.product_id, hpx]; rfl⟩)
      (fun qid p' hp' => by
        rw [hup qid] at hp'
        rcases hL : lookupProduct ps qid with _ | q
        · rw [hL] at hp'; cases hp'
        · rw [hL] at hp'
          simp only [Option.map_some'] at hp'
          have hqid : q.id = qid := lookupProduct_id hL
          have hbq := hbound qid q hL
          by_cases hcase : q.id = r.product_id
          · have hpid : qid = r.product_id := by rw [← hqid, hcase]
            subst hpid
            rw [if_pos hcase] at hp'
            cases hp'
            rw [show rowSum (r :: rest) r.product_id
              = r.quantity + rowSum rest r.product_id by simp [rowSum]] at hbq
            show rowSum rest r.product_id
              ≤ q.reserved_quantity - r.quantity
            omega
          · rw [if_neg hcase] at hp'
            cases hp'
            have hne : r.product_id ≠ qid :=
              fun hcon => hcase (hqid.trans hcon.symm)
            rw [show rowSum (r :: rest) qid = rowSum rest qid by
              simp [rowSum, hne]] at hbq
            exact hbq) pid]
    rw [hup pid]
    rcases hL : lookupProduct ps pid with _ | q
    · simp
    · have hqid : q.id = pid := lookupProduct_id hL
      simp only [Option.map_some']
      by_cases hcase : q.id = r.product_id
      · have hpid : pid = r.product_id := by rw [← hqid, hcase]
        subst hpid
        rw [if_pos hcase]
        rw [show rowSum (r :: rest) r.product_id
          = r.quantity + rowSum rest r.product_id by simp [rowSum]]
        simp only [Option.some.injEq, Prod.mk.injEq]
        constructor
        · trivial
        · show _ = (_ : Int); omega
      · have hne : r.product_id ≠ pid :=
          fun hcon => hcase (hqid.trans hcon.symm)
        rw [if_neg hcase]
        rw [show rowSum (r :: rest) pid = rowSum rest pid by
          simp [rowSum, hne]]

/-- Decomposition of `update_order_status` on a PAID request for an existing
order: each component of the final state. -/
theorem update_order_status_paid (s : DBState) (oid : Nat) (uid : Option Nat)
    (o : OrderRow) (h : lookupOrder s.orders oid = some o) :
    (update_order_status s oid .paid uid).2 = true
      ∧ (update_order_status s oid .paid uid).1.products
          = salesFold s.products s.now (itemsOfOrder s oid)
      ∧ (update_order_status s oid .paid uid).1.transactions
          = s.transactions
              ++ saleEntriesFrom s.next_tx_id s.now oid uid (itemsOfOrder s oid)
      ∧ (update_order_status s oid .paid uid).1.order_items = s.order_items
      ∧ lookupOrder (update_order_status s oid .paid uid).1.orders oid
          = some (applyStatusRow .paid s.now o) := by
  have hsale := saleLoop_frame oid uid (itemsOfOrder s oid) s
  refine ⟨by simp [update_order_status, h], ?_, ?_, ?_, ?_⟩
  · simp only [update_order_status, h]
    exact saleLoop_products_eq oid uid (itemsOfOrder s oid) s
  · simp only [update_order_status, h]
    exact saleLoop_transactions oid uid (itemsOfOrder s oid) s
  · simp only [update_order_status, h]
    exact hsale.2.1
  · simp only [update_order_status, h]
    rw [hsale.1, hsale.2.2, lookupOrder_map_if s.orders oid oid
      (applyStatusRow .paid s.now) (fun q => rfl)]
    simp [h, lookupOrder_id h]

/-- Decomposition of `update_order_status` on a CANCELLED request for an
existing order. -/
theorem update_order_status_cancelled (s : DBState) (oid : Nat)
    (uid : Option Nat) (o : OrderRow) (h : lookupOrder s.orders oid = some o) :
    (update_order_status s oid .cancelled uid).2 = true
      ∧ (update_order_status s oid .cancelled uid).1.products
          = releasesFold s.products s.now (itemsOfOrder s oid)
      ∧ (update_order_status s oid .cancelled uid).1.transactions
          = s.transactions
              ++ releaseEntriesFrom s.next_tx_id s.now oid uid
                  (itemsOfOrder s oid)
      ∧ (update_order_status s oid .cancelled uid).1.order_items
          = s.order_items
      ∧ lookupOrder (update_order_status s oid .cancelled uid).1.orders oid
          = some (applyStatusRow .cancelled s.now o) := by
  have hrel := releaseLoop_frame oid uid (itemsOfOrder s oid) s
  refine ⟨by simp [update_order_status, h], ?_, ?_, ?_, ?_⟩
  · simp only [update_order_status, h]
    exact releaseLoop_products_eq oid uid (itemsOfOrder s oid) s
  · simp only [update_order_status, h]
    exact releaseLoop_transactions oid uid (itemsOfOrder s oid) s
  · simp only [update_order_status, h]
    exact hrel.2.1
  · simp only [update_order_status, h]
    rw [hrel.1, hrel.2.2, lookupOrder_map_if s.orders oid oid
      (applyStatusRow .cancelled s.now) (fun q => rfl)]
    simp [h, lookupOrder_id h]

/-- A DELIVERED request touches no product and no audit entry at all. -/
theorem update_order_status_delivered (s : DBState) (oid : Nat)
    (uid : Option Nat) (o : OrderRow) (h : lookupOrder s.orders oid = some o) :
    (update_order_status s oid .delivered uid).2 = true
      ∧ (update_order_status s oid .delivered uid).1.products = s.products
      ∧ (update_order_status s oid .delivered uid).1.transactions
          = s.transactions
      ∧ lookupOrder (update_order_status s oid .delivered uid).1.orders oid
          = some (applyStatusRow .delivered s.now o) := by
  refine ⟨by simp [update_order_status, h], by simp [update_order_status, h],
    by simp [update_order_status, h], ?_⟩
  simp only [update_order_status, h]
  rw [lookupOrder_map_if s.orders oid oid
    (applyStatusRow .delivered s.now) (fun q => rfl)]
  simp [h, lookupOrder_id h]

/-- C3 (amended): a PAID request is applied to any existing order
regardless of its current status, always succeeds, sets paid_at, and
appends exactly the SALE entries (one per item) whether or not the guarded
stock update matched; when the order's reservations are intact (products
exist, quantities non-negative, reserved covers the per-product totals)
each product's stock and reserved both drop by the per-product total.  No
Inconsistent outcome and no rollback exist. -/
theorem C3_paid_applied_unconditionally (s : DBState) (oid : Nat)
    (uid : Option Nat) (o : OrderRow) (h : lookupOrder s.orders oid = some o) :
    (update_order_status s oid .paid uid).2 = true
      ∧ (lookupOrder (update_order_status s oid .paid uid).1.orders oid).map
          (fun q => (q.status, q.paid_at)) = some (.paid, some s.now)
      ∧ (update_order_status s oid .paid uid).1.transactions
          = s.transactions
              ++ saleEntriesFrom s.next_tx_id s.now oid uid (itemsOfOrder s oid)
      ∧ ((∀ r ∈ itemsOfOrder s oid, 0 ≤ r.quantity) →
          (∀ r ∈ itemsOfOrder s oid,
            ∃ p, lookupProduct s.products r.product_id = some p) →
          (∀ pid p, lookupProduct s.products pid = some p →
              rowSum (itemsOfOrder s oid) pid ≤ p.reserved_quantity) →
          ∀ pid, (lookupProduct
                (update_order_status s oid .paid uid).1.products pid).map
              (fun p => (p.stock_quantity, p.reserved_quantity))
            = (lookupProduct s.products pid).map
                (fun p => (p.stock_quantity - rowSum (itemsOfOrder s oid) pid,
                    p.reserved_quantity - rowSum (itemsOfOrder s oid) pid))) := by
  obtain ⟨h1, h2, h3, _, h5⟩ := update_order_status_paid s oid uid o h
  refine ⟨h1, ?_, h3, ?_⟩
  · rw [h5]
    simp [applyStatusRow]
  · intro hq hex hbound pid
    rw [h2]
    exact salesFold_lookup s.now (itemsOfOrder s oid) s.products hq hex hbound
      pid

/-- Witness for C3 (amended): the CANCELLED (item-free) order 1 accepts a
PAID request, its status becomes PAID and paid_at is set. -/
theorem C3_paid_applied_unconditionally_witness :
    (update_order_status cancelledState 1 .paid none).2 = true
      ∧ (lookupOrder (update_order_status cancelledState 1 .paid
            none).1.orders 1).map (fun q => (q.status, q.paid_at))
          = some (.paid, some 4) := by
  have h := C3_paid_applied_unconditionally cancelledState 1 none
    cancelledOrder (by decide)
  exact ⟨h.1, h.2.1⟩

/-- C8: cancelling an order whose reservations are intact releases exactly
the reserved quantities (stock untouched), appends one RELEASE entry per
item, and only rewrites status and updated_at on the order row (paid_at and
delivered_at keep their old values); a DELIVERED request on a PAID order
changes no product ledger field and writes no audit entry. -/
theorem C8_cancel_release_delivered_frame (s : DBState) (oid : Nat)
    (uid : Option Nat) (o : OrderRow) (h : lookupOrder s.orders oid = some o) :
    (o.status = .placed →
        (∀ r ∈ itemsOfOrder s oid, 0 ≤ r.quantity) →
        (∀ r ∈ itemsOfOrder s oid,
          ∃ p, lookupProduct s.products r.product_id = some p) →
        (∀ pid p, lookupProduct s.products pid = some p →
            rowSum (itemsOfOrder s oid) pid ≤ p.reserved_quantity) →
        (update_order_status s oid .cancelled uid).2 = true
          ∧ (∀ pid, (lookupProduct
                (update_order_status s oid .cancelled uid).1.products pid).map
                (fun p => (p.stock_quantity, p.reserved_quantity))
              = (lookupProduct s.products pid).map
                  (fun p => (p.stock_quantity,
                      p.reserved_quantity - rowSum (itemsOfOrder s oid) pid)))
          ∧ (update_order_status s oid .cancelled uid).1.transactions
              = s.transactions
                  ++ releaseEntriesFrom s.next_tx_id s.now oid uid
                      (itemsOfOrder s oid)
          ∧ lookupOrder (update_order_status s oid .cancelled uid).1.orders
                oid
              = some { o with status := .cancelled, updated_at := s.now })
      ∧ (o.status = .paid →
          (update_order_status s oid .delivered uid).1.products = s.products
            ∧ (update_order_status s oid .delivered uid).1.transactions
                = s.transactions) := by
  constructor
  · intro _ hq hex hbound
    obtain ⟨h1, h2, h3, _, h5⟩ := update_order_status_cancelled s oid uid o h
    refine ⟨h1, ?_, h3, ?_⟩
    · intro pid
      rw [h2]
      exact releasesFold_lookup s.now (itemsOfOrder s oid) s.products hq hex
        hbound pid
    · rw [h5]
      rfl
  · intro _
    obtain ⟨_, h2, h3, _⟩ := update_order_status_delivered s oid uid o h
    exact ⟨h2, h3⟩

/-- Witness for C8: cancelling the reserved demo order releases the 7
units (stock stays 10, reserved returns to 0), and a DELIVERED request on
the PAID demo state touches no product. -/
theorem C8_cancel_release_delivered_frame_witness :
    (update_order_status demoAfterReserve 1 .cancelled none).2 = true
      ∧ (lookupProduct (update_order_status demoAfterReserve 1 .cancelled
            none).1.products 1).map
          (fun p => (p.stock_quantity, p.reserved_quantity)) = some (10, 0)
      ∧ (update_order_status demoAfterPaid 1 .delivered none).1.products
          = demoAfterPaid.products := by
  have hord : lookupOrder demoAfterReserve.orders 1 = some demoOrder := by
    decide
  have hcancel := (C8_cancel_release_delivered_frame demoAfterReserve 1 none
      demoOrder hord).1 (by decide) (by decide)
    (by
      intro r hr
      have hall : ∀ x ∈ itemsOfOrder demoAfterReserve 1,
          (lookupProduct demoAfterReserve.products x.product_id).isSome
            = true := by decide
      exact Option.isSome_iff_exists.mp (hall r hr))
    (by
      intro pid p hp
      have hm : p ∈ demoAfterReserve.products :=
        List.mem_of_find?_eq_some hp
      have hid : p.id = pid := lookupProduct_id hp
      have hall : ∀ q ∈ demoAfterReserve.products,
          rowSum (itemsOfOrder demoAfterReserve 1) q.id
            ≤ q.reserved_quantity := by decide
      have := hall p hm
      rwa [hid] at this)
  have hpaidord : lookupOrder demoAfterPaid.orders 1
      = some (applyStatusRow .paid 3 demoOrder) := by decide
  have hdel := (C8_cancel_release_delivered_frame demoAfterPaid 1 none
      (applyStatusRow .paid 3 demoOrder) hpaidord).2 (by decide)
  exact ⟨hcancel.1, (hcancel.2.1 1).trans (by decide), hdel.1⟩

/-! ## Lemmas about the create_order reservation loop. -/

theorem reserveLoop_some (oid : Nat) :
    ∀ (items : List OrderItem) (w w' : DBState),
      reserveLoop w oid items = some w' →
      w'.orders = w.orders
        ∧ w'.order_items = w.order_items ++ itemRows oid items
        ∧ w'.transactions
            = w.transactions ++ reserveEntriesFrom w.next_tx_id w.now oid items
        ∧ reservesFold w.products w.now items = some w'.products := by
  intro items
  induction items with
  | nil =>
    intro w w' hw
    cases hw
    simp [itemRows, reserveEntriesFrom, reservesFold]
  | cons it rest ih =>
    intro w w' hw
    rcases hL : lookupProduct w.products it.product_id with _ | p
    · simp only [reserveLoop, hL] at hw
      cases hw
    · simp only [reserveLoop, hL] at hw
      by_cases hq : p.stock_quantity - p.reserved_quantity < it.quantity
      · rw [if_pos hq] at hw
        cases hw
      · rw [if_neg hq] at hw
        obtain ⟨ho, hoi, htx, hpf⟩ := ih _ _ hw
        refine ⟨ho, ?_, ?_, ?_⟩
        · rw [hoi]
          simp [itemRows]
        · rw [htx]
          simp [reserveEntriesFrom, reserveEntry]
        · simp only [reservesFold, hL, if_neg hq]
          exact hpf

theorem reserveLoop_none_of_missing (oid : Nat) :
    ∀ (items : List OrderItem) (w : DBState) (it : OrderItem),
      it ∈ items → lookupProduct w.products it.product_id = none →
      reserveLoop w oid items = none := by
  intro items
  induction items with
  | nil =>
    intro w it hmem
    cases hmem
  | cons it0 rest ih =>
    intro w it hmem hnone
    rcases List.mem_cons.mp hmem with hcase | hcase
    · subst hcase
      simp only [reserveLoop, hnone]
    · rcases hL : lookupProduct w.products it0.product_id with _ | p
      · simp only [reserveLoop, hL]
      · by_cases hq : p.stock_quantity - p.reserved_quantity < it0.quantity
        · simp only [reserveLoop, hL, if_pos hq]
        · simp only [reserveLoop, hL, if_neg hq]
          refine ih _ it hcase ?_
          show lookupProduct (updateProduct w.products it0.product_id
            (fun q =>
              { q with reserved_quantity := q.reserved_quantity + it0.quantity,
                       updated_at := w.now })) it.product_id = none
          rw [lookupProduct_updateProduct w.products it0.product_id
            it.product_id (fun q =>
              { q with reserved_quantity := q.reserved_quantity + it0.quantity,
                       updated_at := w.now }) (fun q => rfl), hnone]
          rfl

theorem reserveLoop_none_of_insufficient (oid : Nat) :
    ∀ (items : List OrderItem) (w : DBState) (it : OrderItem) (p : Product),
      (∀ x ∈ items, 0 ≤ x.quantity) → it ∈ items →
      lookupProduct w.products it.product_id = some p →
      p.stock_quantity - p.reserved_quantity < it.quantity →
      reserveLoop w oid items = none := by
  intro items
  induction items with
  | nil =>
    intro w it p _ hmem
    cases hmem
  | cons it0 rest ih =>
    intro w it p hnn hmem hp havail
    rcases hL : lookupProduct w.products it0.product_id with _ | p0
    · simp only [reserveLoop, hL]
    · by_cases hq : p0.stock_quantity - p0.reserved_quantity < it0.quantity
      · simp only [reserveLoop, hL, if_pos hq]
      · rcases List.mem_cons.mp hmem with hcase | hcase
        · subst hcase
          rw [hp] at hL
          cases hL
          exact absurd havail hq
        · simp only [reserveLoop, hL, if_neg hq]
          have hup := lookupProduct_updateProduct w.products it0.product_id
            it.product_id (fun q =>
              { q with reserved_quantity := q.reserved_quantity + it0.quantity,
                       updated_at := w.now }) (fun q => rfl)
          have hq0 : 0 ≤ it0.quantity := hnn it0 (List.mem_cons_self it0 rest)
          by_cases hsame : p.id = it0.product_id
          · refine ih _ it
              { p with reserved_quantity := p.reserved_quantity + it0.quantity,
                       updated_at := w.now }
              (fun x hx => hnn x (List.mem_cons_of_mem it0 hx)) hcase ?_ ?_
            · show lookupProduct (updateProduct w.products it0.product_id
                (fun q => { q with
                    reserved_quantity := q.reserved_quantity + it0.quantity,
                    updated_at := w.now })) it.product_id = _
              rw [hup, hp]
              simp [hsame]
            · show p.stock_quantity - (p.reserved_quantity + it0.quantity)
                < it.quantity
              omega
          · refine ih _ it p
              (fun x hx => hnn x (List.mem_cons_of_mem it0 hx)) hcase ?_ havail
            show lookupProduct (updateProduct w.products it0.product_id
              (fun q => { q with
                  reserved_quantity := q.reserved_quantity + it0.quantity,
                  updated_at := w.now })) it.product_id = _
            rw [hup, hp]
            simp [hsame]

/-- Per-product effect of a successful reservation pass: stock untouched,
reserved grows by the per-product total of the items. -/
theorem reservesFold_lookup (now : Nat) :
    ∀ (items : List OrderItem) (ps ps' : List Product),
      reservesFold ps now items = some ps' →
      ∀ pid, (lookupProduct ps' pid).map
            (fun p => (p.stock_quantity, p.reserved_quantity))
          = (lookupProduct ps pid).map
              (fun p => (p.stock_quantity,
                         p.reserved_quantity + itemSum items pid)) := by
  intro items
  induction items with
  | nil =>
    intro ps ps' hw pid
    cases hw
    cases hL : lookupProduct ps pid <;> simp [itemSum, hL]
  | cons it rest ih =>
    intro ps ps' hw pid
    rcases hL : lookupProduct ps it.product_id with _ | p
    · simp only [reservesFold, hL] at hw
      cases hw
    · simp only [reservesFold, hL] at hw
      by_cases hq : p.stock_quantity - p.reserved_quantity < it.quantity
      · rw [if_pos hq] at hw
        cases hw
      · rw [if_neg hq] at hw
        have hup := fun qid => lookupProduct_updateProduct ps it.product_id
          qid (fun q =>
            { q with reserved_quantity := q.reserved_quantity + it.quantity,
                     updated_at := now }) (fun q => rfl)
        rw [ih _ _ hw pid, hup pid]
        rcases hQ : lookupProduct ps pid with _ | q
        · simp
        · have hqid : q.id = pid := lookupProduct_id hQ
          simp only [Option.map_some']
          by_cases hcase : q.id = it.product_id
          · have hpid : pid = it.product_id := by rw [← hqid, hcase]
            subst hpid
            rw [if_pos hcase]
            rw [show itemSum (it :: rest) it.product_id
              = it.quantity + itemSum rest it.product_id by simp [itemSum]]
            simp only [Option.some.injEq, Prod.mk.injEq]
            constructor
            · trivial
            · show _ = (_ : Int); omega
          · have hne : it.product_id ≠ pid :=
              fun hcon => hcase (hqid.trans hcon.symm)
            rw [if_neg hcase]
            rw [show itemSum (it :: rest) pid = itemSum rest pid by
              simp [itemSum, hne]]

/-- C2: create_order is atomic.  A rejection (None) leaves the post-state
equal to the pre-state — no order row, no order-item rows, no reservation
change, no audit entries; a missing product, or (for non-negative
quantities) any item whose pre-state availability is below its quantity,
forces rejection; on success the order row, the order-item rows, the
RESERVE audit entries (one per item) and the per-product reservation
increments are all committed together and the materialized Order with the
generated id is returned. -/
theorem C2_create_order_atomic (s : DBState) (cid : Nat)
    (items : List OrderItem) :
    ((create_order s cid items).2 = none → (create_order s cid items).1 = s)
      ∧ ((∃ it ∈ items, lookupProduct s.products it.product_id = none) →
          create_order s cid items = (s, none))
      ∧ ((∀ it ∈ items, 0 ≤ it.quantity) →
          (∃ it ∈ items, ∃ p, lookupProduct s.products it.product_id = some p
              ∧ p.stock_quantity - p.reserved_quantity < it.quantity) →
          create_order s cid items = (s, none))
      ∧ (∀ ord, (create_order s cid items).2 = some ord →
          ord = { id := s.next_order_id, customer_id := cid, items := items,
                  status := .placed, paid_at := none, delivered_at := none }
            ∧ (create_order s cid items).1.orders
                = s.orders ++ [placedRow s cid]
            ∧ (create_order s cid items).1.order_items
                = s.order_items ++ itemRows s.next_order_id items
            ∧ (create_order s cid items).1.transactions
                = s.transactions
                    ++ reserveEntriesFrom s.next_tx_id s.now s.next_order_id
                        items
            ∧ ∀ pid, (lookupProduct (create_order s cid items).1.products
                  pid).map (fun p => (p.stock_quantity, p.reserved_quantity))
                = (lookupProduct s.products pid).map
                    (fun p => (p.stock_quantity,
                        p.reserved_quantity + itemSum items pid))) := by
  refine ⟨?_, ?_, ?_, ?_⟩
  · intro hnone
    rcases hL : reserveLoop
        { s with orders := s.orders ++ [placedRow s cid],
                 next_order_id := s.next_order_id + 1 }
        s.next_order_id items with _ | w
    · simp [create_order, hL]
    · simp [create_order, hL] at hnone
  · intro ⟨it, hmem, hnone⟩
    have hL := reserveLoop_none_of_missing s.next_order_id items
      { s with orders := s.orders ++ [placedRow s cid],
               next_order_id := s.next_order_id + 1 }
      it hmem hnone
    simp [create_order, hL]
  · intro hnn ⟨it, hmem, p, hp, havail⟩
    have hL := reserveLoop_none_of_insufficient s.next_order_id items
      { s with orders := s.orders ++ [placedRow s cid],
               next_order_id := s.next_order_id + 1 }
      it p hnn hmem hp havail
    simp [create_order, hL]
  · intro ord hsome
    rcases hL : reserveLoop
        { s with orders := s.orders ++ [placedRow s cid],
                 next_order_id := s.next_order_id + 1 }
        s.next_order_id items with _ | w
    · simp [create_order, hL] at hsome
    · obtain ⟨ho, hoi, htx, hpf⟩ := reserveLoop_some s.next_order_id items _ w
        hL
      have hres : create_order s cid items
          = (w, some { id := s.next_order_id, customer_id := cid,
                       items := items, status := .placed,
                       paid_at := none, delivered_at := none }) := by
        simp [create_order, hL]
      rw [hres] at hsome ⊢
      refine ⟨by simpa using hsome.symm, by simpa using ho, ?_, ?_, ?_⟩
      · simpa using hoi
      · simpa using htx
      · intro pid
        exact reservesFold_lookup s.now items s.products w.products hpf pid

/-- Witness for C2: an order on a missing product is rejected with the
pre-state intact, and a successful two-unit order appends exactly its
order-item row. -/
theorem C2_create_order_atomic_witness :
    create_order demoState 1 [⟨9, 1, 5⟩] = (demoState, none)
      ∧ (create_order demoState 1 [⟨1, 2, 5⟩]).1.order_items
          = demoState.order_items ++ itemRows 2 [⟨1, 2, 5⟩] :=
  ⟨(C2_create_order_atomic demoState 1 [⟨9, 1, 5⟩]).2.1
      ⟨⟨9, 1, 5⟩, by simp, by decide⟩,
   ((C2_create_order_atomic demoState 1 [⟨1, 2, 5⟩]).2.2.2
      { id := 2, customer_id := 1, items := [⟨1, 2, 5⟩], status := .placed,
        paid_at := none, delivered_at := none } (by decide)).2.2.1⟩

/-! ## Invariant preservation machinery for C6. -/

theorem lookupProduct_unique {ps : List Product} {pid : Nat} {p q : Product}
    (hnd : (ps.map Product.id).Nodup) (hL : lookupProduct ps pid = some p)
    (hq : q ∈ ps) (hid : q.id = pid) : q = p := by
  induction ps with
  | nil => cases hq
  | cons x rest ih =>
    rcases List.mem_cons.mp hq with hcase | hcase
    · subst hcase
      rw [lookupProduct, List.find?_cons_of_pos _ (by simp [hid])] at hL
      cases hL
      rfl
    · by_cases hx : x.id = pid
      · exfalso
        have hmem : x.id ∈ rest.map Product.id := by
          rw [hx]
          exact List.mem_map.mpr ⟨q, hcase, hid⟩
        exact (List.nodup_cons.mp (by simpa using hnd)).1 hmem
      · rw [lookupProduct, List.find?_cons_of_neg _ (by simp [hx])] at hL
        exact ih (by simpa using (List.nodup_cons.mp (by simpa using hnd)).2)
          hL hcase

theorem inv_update_all {ps : List Product} {pid : Nat} {f : Product → Product}
    (hinv : ∀ q ∈ ps, prodInv q) (hf : ∀ q, prodInv q → prodInv (f q)) :
    ∀ q ∈ updateProduct ps pid f, prodInv q := by
  intro q hq
  obtain ⟨x, hx, hxe⟩ := List.mem_map.mp hq
  by_cases hc : x.id = pid
  · rw [if_pos hc] at hxe
    rw [← hxe]
    exact hf x (hinv x hx)
  · rw [if_neg hc] at hxe
    rw [← hxe]
    exact hinv x hx

theorem inv_update_found {ps : List Product} {pid : Nat} {p : Product}
    {f : Product → Product} (hnd : (ps.map Product.id).Nodup)
    (hL : lookupProduct ps pid = some p) (hinv : ∀ q ∈ ps, prodInv q)
    (hf : prodInv (f p)) : ∀ q ∈ updateProduct ps pid f, prodInv q := by
  intro q hq
  obtain ⟨x, hx, hxe⟩ := List.mem_map.mp hq
  by_cases hc : x.id = pid
  · rw [if_pos hc] at hxe
    rw [← hxe, lookupProduct_unique hnd hL hx hc]
    exact hf
  · rw [if_neg hc] at hxe
    rw [← hxe]
    exact hinv x hx

/-- The PAID loop preserves the product invariant and the id list. -/
theorem salesFold_inv (now : Nat) :
    ∀ (rows : List OrderItemRow) (ps : List Product),
      (∀ q ∈ ps, prodInv q) → (ps.map Product.id).Nodup →
      (∀ r ∈ rows, 0 ≤ r.quantity) →
      (∀ q ∈ salesFold ps now rows, prodInv q)
        ∧ (salesFold ps now rows).map Product.id = ps.map Product.id := by
  intro rows
  induction rows with
  | nil => exact fun ps hinv _ _ => ⟨hinv, rfl⟩
  | cons r rest ih =>
    intro ps hinv hnd hq
    have hq0 : 0 ≤ r.quantity := hq r (List.mem_cons_self r rest)
    have hqr : ∀ x ∈ rest, 0 ≤ x.quantity :=
      fun x hx => hq x (List.mem_cons_of_mem r hx)
    rcases hL : lookupProduct ps r.product_id with _ | p
    · simp only [salesFold, hL]
      exact ih ps hinv hnd hqr
    · by_cases hg : p.reserved_quantity ≥ r.quantity
      · simp only [salesFold, hL, if_pos hg]
        have hpinv := hinv p (List.mem_of_find?_eq_some hL)
        have hids := updateProduct_ids ps r.product_id (fun q =>
          { q with stock_quantity := q.stock_quantity - r.quantity,
                   reserved_quantity := q.reserved_quantity - r.quantity,
                   updated_at := now }) (fun q => rfl)
        have hinv' := inv_update_found hnd hL hinv
          (f := fun q =>
            { q with stock_quantity := q.stock_quantity - r.quantity,
                     reserved_quantity := q.reserved_quantity - r.quantity,
                     updated_at := now })
          (by
            obtain ⟨h1, h2⟩ := hpinv
            exact ⟨by simp; omega, by simp; omega⟩)
        obtain ⟨ha, hb⟩ := ih _ hinv' (by rw [hids]; exact hnd) hqr
        exact ⟨ha, by rw [hb, hids]⟩
      · simp only [salesFold, hL, if_neg hg]
        exact ih ps hinv hnd hqr

/-- The CANCELLED loop preserves the product invariant and the id list. -/
theorem releasesFold_inv (now : Nat) :
    ∀ (rows : List OrderItemRow) (ps : List Product),
      (∀ q ∈ ps, prodInv q) → (ps.map Product.id).Nodup →
      (∀ r ∈ rows, 0 ≤ r.quantity) →
      (∀ q ∈ releasesFold ps now rows, prodInv q)
        ∧ (releasesFold ps now rows).map Product.id = ps.map Product.id := by
  intro rows
  induction rows with
  | nil => exact fun ps hinv _ _ => ⟨hinv, rfl⟩
  | cons r rest ih =>
    intro ps hinv hnd hq
    have hq0 : 0 ≤ r.quantity := hq r (List.mem_cons_self r rest)
    have hqr : ∀ x ∈ rest, 0 ≤ x.quantity :=
      fun x hx => hq x (List.mem_cons_of_mem r hx)
    rcases hL : lookupProduct ps r.product_id with _ | p
    · simp only [releasesFold, hL]
      exact ih ps hinv hnd hqr
    · by_cases hg : p.reserved_quantity ≥ r.quantity
      · simp only [releasesFold, hL, if_pos hg]
        have hpinv := hinv p (List.mem_of_find?_eq_some hL)
        have hids := updateProduct_ids ps r.product_id (fun q =>
          { q with reserved_quantity := q.reserved_quantity - r.quantity,
                   updated_at := now }) (fun q => rfl)
        have hinv' := inv_update_found hnd hL hinv
          (f := fun q =>
            { q with reserved_quantity := q.reserved_quantity - r.quantity,
                     updated_at := now })
          (by
            obtain ⟨h1, h2⟩ := hpinv
            exact ⟨by simp; omega, by simp; omega⟩)
        obtain ⟨ha, hb⟩ := ih _ hinv' (by rw [hids]; exact hnd) hqr
        exact ⟨ha, by rw [hb, hids]⟩
      · simp only [releasesFold, hL, if_neg hg]
        exact ih ps hinv hnd hqr

/-- A successful reservation pass preserves the product invariant and the
id list. -/
theorem reservesFold_inv (now : Nat) :
    ∀ (items : List OrderItem) (ps ps' : List Product),
      reservesFold ps now items = some ps' →
      (∀ q ∈ ps, prodInv q) → (ps.map Product.id).Nodup →
      (∀ it ∈ items, 0 ≤ it.quantity) →
      (∀ q ∈ ps', prodInv q)
        ∧ ps'.map Product.id = ps.map Product.id := by
  intro items
  induction items with
  | nil =>
    intro ps ps' hw hinv _ _
    cases hw
    exact ⟨hinv, rfl⟩
  | cons it rest ih =>
    intro ps ps' hw hinv hnd hq
    have hq0 : 0 ≤ it.quantity := hq it (List.mem_cons_self it rest)
    have hqr : ∀ x ∈ rest, 0 ≤ x.quantity :=
      fun x hx => hq x (List.mem_cons_of_mem it hx)
    rcases hL : lookupProduct ps it.product_id with _ | p
    · simp only [reservesFold, hL] at hw
      cases hw
    · simp only [reservesFold, hL] at hw
      by_cases hg : p.stock_quantity - p.reserved_quantity < it.quantity
      · rw [if_pos hg] at hw
        cases hw
      · rw [if_neg hg] at hw
        have hpinv := hinv p (List.mem_of_find?_eq_some hL)
        have hids := updateProduct_ids ps it.product_id (fun q =>
          { q with reserved_quantity := q.reserved_quantity + it.quantity,
                   updated_at := now }) (fun q => rfl)
        have hinv' := inv_update_found hnd hL hinv
          (f := fun q =>
            { q with reserved_quantity := q.reserved_quantity + it.quantity,
                     updated_at := now })
          (by
            obtain ⟨h1, h2⟩ := hpinv
            exact ⟨by simp; omega, by simp; omega⟩)
        obtain ⟨ha, hb⟩ := ih _ _ hw hinv' (by rw [hids]; exact hnd) hqr
        exact ⟨ha, by rw [hb, hids]⟩

theorem saleLoop_npid (oid : Nat) (uid : Option Nat) :
    ∀ (rows : List OrderItemRow) (w : DBState),
      (saleLoop w oid uid rows).next_product_id = w.next_product_id := by
  intro rows
  induction rows with
  | nil => intro w; rfl
  | cons r rest ih =>
    intro w
    simpa [saleLoop] using ih _

theorem releaseLoop_npid (oid : Nat) (uid : Option Nat) :
    ∀ (rows : List OrderItemRow) (w : DBState),
      (releaseLoop w oid uid rows).next_product_id = w.next_product_id := by
  intro rows
  induction rows with
  | nil => intro w; rfl
  | cons r rest ih =>
    intro w
    simpa [releaseLoop] using ih _

theorem reserveLoop_npid (oid : Nat) :
    ∀ (items : List OrderItem) (w w' : DBState),
      reserveLoop w oid items = some w' →
      w'.next_product_id = w.next_product_id := by
  intro items
  induction items with
  | nil =>
    intro w w' hw
    cases hw
    rfl
  | cons it rest ih =>
    intro w w' hw
    rcases hL : lookupProduct w.products it.product_id with _ | p
    · simp only [reserveLoop, hL] at hw
      cases hw
    · simp only [reserveLoop, hL] at hw
      by_cases hq : p.stock_quantity - p.reserved_quantity < it.quantity
      · rw [if_pos hq] at hw
        cases hw
      · rw [if_neg hq] at hw
        have hnp := ih _ _ hw
        exact hnp

/-- Every quantity stored by `itemRows` comes from an item of the list. -/
theorem itemRows_quantity (oid : Nat) (items : List OrderItem)
    (h : ∀ it ∈ items, 0 ≤ it.quantity) :
    ∀ r ∈ itemRows oid items, 0 ≤ r.quantity := by
  intro r hr
  obtain ⟨it, hit, hre⟩ := List.mem_map.mp hr
  rw [← hre]
  exact h it hit

theorem bound_of_ids_eq {ps qs : List Product} {n : Nat}
    (hids : qs.map Product.id = ps.map Product.id)
    (hb : ∀ p ∈ ps, p.id < n) : ∀ q ∈ qs, q.id < n := by
  intro q hq
  have hmem : q.id ∈ ps.map Product.id := by
    rw [← hids]
    exact List.mem_map_of_mem Product.id hq
  obtain ⟨x, hx, hxe⟩ := List.mem_map.mp hmem
  rw [← hxe]
  exact hb x hx

theorem bound_updateProduct {ps : List Product} {pid n : Nat}
    {f : Product → Product} (hf : ∀ p, (f p).id = p.id)
    (hb : ∀ p ∈ ps, p.id < n) : ∀ q ∈ updateProduct ps pid f, q.id < n := by
  intro q hq
  obtain ⟨x, hx, hxe⟩ := List.mem_map.mp hq
  by_cases hc : x.id = pid
  · rw [if_pos hc] at hxe
    rw [← hxe, hf x]
    exact hb x hx
  · rw [if_neg hc] at hxe
    rw [← hxe]
    exact hb x hx

/-- Every public operation with well-formed arguments preserves the full
induction invariant. -/
theorem applyOp_fullInv {s : DBState} {op : Op} (hs : fullInv s)
    (hop : opWF op) : fullInv (applyOp s op) := by
  obtain ⟨hinv, hqty, hnd, hbound⟩ := hs
  cases op with
  | createProduct n d pr st th =>
    have hst : 0 ≤ st := hop
    simp only [applyOp, create_product, create_inventory_transaction]
    refine ⟨?_, hqty, ?_, ?_⟩
    · intro p hp
      rcases List.mem_append.mp hp with hcase | hcase
      · exact hinv p hcase
      · rw [List.mem_singleton.mp hcase]
        exact ⟨le_refl 0, hst⟩
    · simp only [List.map_append, List.map_cons, List.map_nil]
      refine List.Nodup.append hnd (List.nodup_singleton _) ?_
      intro a ha hb
      simp only [List.mem_singleton] at hb
      obtain ⟨q, hq2, hqe⟩ := List.mem_map.mp ha
      have := hbound q hq2
      omega
    · intro p hp
      rcases List.mem_append.mp hp with hcase | hcase
      · show p.id < s.next_product_id + 1
        have := hbound p hcase
        omega
      · rw [List.mem_singleton.mp hcase]
        show s.next_product_id < s.next_product_id + 1
        omega
  | restock pid qty uid =>
    have hq : 0 ≤ qty := hop
    rcases hL : lookupProduct s.products pid with _ | p
    · simp only [applyOp]
      rw [restock_product_none qty uid hL]
      exact ⟨hinv, hqty, hnd, hbound⟩
    · obtain ⟨_, hprod, _, _, hoi, hnp, _⟩ := restock_product_some qty uid hL
      have hids := updateProduct_ids s.products pid (fun q =>
        { q with stock_quantity := q.stock_quantity + qty,
                 updated_at := s.now }) (fun q => rfl)
      simp only [applyOp]
      refine ⟨?_, ?_, ?_, ?_⟩
      · intro q hq2
        rw [hprod] at hq2
        refine inv_update_all
          (f := fun q => { q with stock_quantity := q.stock_quantity + qty,
                                  updated_at := s.now })
          hinv (fun x hx => ⟨hx.1, ?_⟩) q hq2
        show x.reserved_quantity ≤ x.stock_quantity + qty
        obtain ⟨_, h2⟩ := hx
        omega
      · intro r hr
        rw [hoi] at hr
        exact hqty r hr
      · rw [hprod, hids]
        exact hnd
      · intro q hq2
        rw [hprod] at hq2
        rw [hnp]
        exact bound_updateProduct
          (f := fun q => { q with stock_quantity := q.stock_quantity + qty,
                                  updated_at := s.now })
          (fun q => rfl) hbound q hq2
  | reserve pid qty oid =>
    have hq : 0 ≤ qty := hop
    rcases hL : lookupProduct s.products pid with _ | p
    · simp only [applyOp]
      rw [reserve_stock_none qty oid hL]
      exact ⟨hinv, hqty, hnd, hbound⟩
    · by_cases hg : p.stock_quantity - p.reserved_quantity < qty
      · simp only [applyOp]
        rw [reserve_stock_fail qty oid hL hg]
        exact ⟨hinv, hqty, hnd, hbound⟩
      · obtain ⟨_, hprod, _, _, hoi, hnp, _⟩ :=
          reserve_stock_succ oid hL (not_lt.mp hg)
        have hids := updateProduct_ids s.products pid (fun q =>
          { q with reserved_quantity := q.reserved_quantity + qty,
                   updated_at := s.now }) (fun q => rfl)
        simp only [applyOp]
        refine ⟨?_, ?_, ?_, ?_⟩
        · intro q hq2
          rw [hprod] at hq2
          refine inv_update_found hnd hL hinv ?_ q hq2
          have hp := hinv p (List.mem_of_find?_eq_some hL)
          obtain ⟨h1, h2⟩ := hp
          rw [not_lt] at hg
          exact ⟨by show 0 ≤ p.reserved_quantity + qty; omega,
            by show p.reserved_quantity + qty ≤ p.stock_quantity; omega⟩
        · intro r hr
          rw [hoi] at hr
          exact hqty r hr
        · rw [hprod, hids]
          exact hnd
        · intro q hq2
          rw [hprod] at hq2
          rw [hnp]
          exact bound_updateProduct
            (f := fun q =>
              { q with reserved_quantity := q.reserved_quantity + qty,
                       updated_at := s.now })
            (fun q => rfl) hbound q hq2
  | release pid qty oid =>
    have hq : 0 ≤ qty := hop
    rcases hL : lookupProduct s.products pid with _ | p
    · simp only [applyOp]
      rw [release_stock_none qty oid hL]
      exact ⟨hinv, hqty, hnd, hbound⟩
    · by_cases hg : p.reserved_quantity < qty
      · simp only [applyOp]
        rw [release_stock_fail qty oid hL hg]
        exact ⟨hinv, hqty, hnd, hbound⟩
      · obtain ⟨_, hprod, _, _, hoi, hnp, _⟩ :=
          release_stock_succ oid hL (not_lt.mp hg)
        have hids := updateProduct_ids s.products pid (fun q =>
          { q with reserved_quantity := q.reserved_quantity - qty,
                   updated_at := s.now }) (fun q => rfl)
        simp only [applyOp]
        refine ⟨?_, ?_, ?_, ?_⟩
        · intro q hq2
          rw [hprod] at hq2
          refine inv_update_found hnd hL hinv ?_ q hq2
          have hp := hinv p (List.mem_of_find?_eq_some hL)
          obtain ⟨h1, h2⟩ := hp
          rw [not_lt] at hg
          exact ⟨by show 0 ≤ p.reserved_quantity - qty; omega,
            by show p.reserved_quantity - qty ≤ p.stock_quantity; omega⟩
        · intro r hr
          rw [hoi] at hr
          exact hqty r hr
        · rw [hprod, hids]
          exact hnd
        · intro q hq2
          rw [hprod] at hq2
          rw [hnp]
          exact bound_updateProduct
            (f := fun q =>
              { q with reserved_quantity := q.reserved_quantity - qty,
                       updated_at := s.now })
            (fun q => rfl) hbound q hq2
  | sell pid qty oid =>
    have hq : 0 ≤ qty := hop
    rcases hL : lookupProduct s.products pid with _ | p
    · simp only [applyOp]
      rw [sell_product_none qty oid hL]
      exact ⟨hinv, hqty, hnd, hbound⟩
    · by_cases hg : p.reserved_quantity < qty
      · simp only [applyOp]
        rw [sell_product_fail qty oid hL hg]
        exact ⟨hinv, hqty, hnd, hbound⟩
      · obtain ⟨_, hprod, _, _, hoi, hnp, _⟩ :=
          sell_product_succ oid hL (not_lt.mp hg)
        have hids := updateProduct_ids s.products pid (fun q =>
          { q with stock_quantity := q.stock_quantity - qty,
                   reserved_quantity := q.reserved_quantity - qty,
                   updated_at := s.now }) (fun q => rfl)
        simp only [applyOp]
        refine ⟨?_, ?_, ?_, ?_⟩
        · intro q hq2
          rw [hprod] at hq2
          refine inv_update_found hnd hL hinv ?_ q hq2
          have hp := hinv p (List.mem_of_find?_eq_some hL)
          obtain ⟨h1, h2⟩ := hp
          rw [not_lt] at hg
          exact ⟨by show 0 ≤ p.reserved_quantity - qty; omega,
            by show p.reserved_quantity - qty ≤ p.stock_quantity - qty; omega⟩
        · intro r hr
          rw [hoi] at hr
          exact hqty r hr
        · rw [hprod, hids]
          exact hnd
        · intro q hq2
          rw [hprod] at hq2
          rw [hnp]
          exact bound_updateProduct
            (f := fun q =>
              { q with stock_quantity := q.stock_quantity - qty,
                       reserved_quantity := q.reserved_quantity - qty,
                       updated_at := s.now })
            (fun q => rfl) hbound q hq2
  | createOrder cid items =>
    have hit : ∀ it ∈ items, 0 ≤ it.quantity := hop
    rcases hL : reserveLoop
        { s with orders := s.orders ++ [placedRow s cid],
                 next_order_id := s.next_order_id + 1 }
        s.next_order_id items with _ | w
    · simp only [applyOp, create_order, hL]
      exact ⟨hinv, hqty, hnd, hbound⟩
    · obtain ⟨ho, hoi, htx, hpf⟩ := reserveLoop_some s.next_order_id items _ w
        hL
      have hnp := reserveLoop_npid s.next_order_id items _ w hL
      have hfold := reservesFold_inv s.now items s.products w.products hpf
        hinv hnd hit
      simp only [applyOp, create_order, hL]
      refine ⟨?_, ?_, ?_, ?_⟩
      · exact hfold.1
      · intro r hr
        rw [hoi] at hr
        rcases List.mem_append.mp hr with hcase | hcase
        · exact hqty r hcase
        · exact itemRows_quantity s.next_order_id items hit r hcase
      · rw [hfold.2]
        exact hnd
      · intro q hq2
        rw [hnp]
        exact bound_of_ids_eq hfold.2 hbound q hq2
  | updateOrderStatus oid st uid =>
    rcases hO : lookupOrder s.orders oid with _ | o
    · simp only [applyOp, update_order_status, hO]
      exact ⟨hinv, hqty, hnd, hbound⟩
    · cases st with
      | placed =>
        simp only [applyOp, update_order_status, hO]
        exact ⟨hinv, hqty, hnd, hbound⟩
      | delivered =>
        simp only [applyOp, update_order_status, hO]
        exact ⟨hinv, hqty, hnd, hbound⟩
      | paid =>
        have hrows : ∀ r ∈ itemsOfOrder s oid, 0 ≤ r.quantity :=
          fun r hr => hqty r (List.mem_of_mem_filter hr)
        have hfold := salesFold_inv s.now (itemsOfOrder s oid) s.products
          hinv hnd hrows
        simp only [applyOp, update_order_status, hO]
        refine ⟨?_, ?_, ?_, ?_⟩
        · intro q hq2
          have hq3 : q ∈ (saleLoop s oid uid (itemsOfOrder s oid)).products :=
            hq2
          rw [saleLoop_products_eq oid uid (itemsOfOrder s oid) s] at hq3
          exact hfold.1 q hq3
        · intro r hr
          have hr2 : r ∈ (saleLoop s oid uid (itemsOfOrder s oid)).order_items
            := hr
          rw [(saleLoop_frame oid uid (itemsOfOrder s oid) s).2.1] at hr2
          exact hqty r hr2
        · show (((saleLoop s oid uid (itemsOfOrder s oid)).products).map
            Product.id).Nodup
          rw [saleLoop_products_eq oid uid (itemsOfOrder s oid) s, hfold.2]
          exact hnd
        · intro q hq2
          have hq3 : q ∈ (saleLoop s oid uid (itemsOfOrder s oid)).products :=
            hq2
          rw [saleLoop_products_eq oid uid (itemsOfOrder s oid) s] at hq3
          show q.id < (saleLoop s oid uid (itemsOfOrder s oid)).next_product_id
          rw [saleLoop_npid oid uid (itemsOfOrder s oid) s]
          exact bound_of_ids_eq hfold.2 hbound q hq3
      | cancelled =>
        have hrows : ∀ r ∈ itemsOfOrder s oid, 0 ≤ r.quantity :=
          fun r hr => hqty r (List.mem_of_mem_filter hr)
        have hfold := releasesFold_inv s.now (itemsOfOrder s oid) s.products
          hinv hnd hrows
        simp only [applyOp, update_order_status, hO]
        refine ⟨?_, ?_, ?_, ?_⟩
        · intro q hq2
          have hq3 : q ∈ (releaseLoop s oid uid
              (itemsOfOrder s oid)).products := hq2
          rw [releaseLoop_products_eq oid uid (itemsOfOrder s oid) s] at hq3
          exact hfold.1 q hq3
        · intro r hr
          have hr2 : r ∈ (releaseLoop s oid uid
              (itemsOfOrder s oid)).order_items := hr
          rw [(releaseLoop_frame oid uid (itemsOfOrder s oid) s).2.1] at hr2
          exact hqty r hr2
        · show (((releaseLoop s oid uid (itemsOfOrder s oid)).products).map
            Product.id).Nodup
          rw [releaseLoop_products_eq oid uid (itemsOfOrder s oid) s,
            hfold.2]
          exact hnd
        · intro q hq2
          have hq3 : q ∈ (releaseLoop s oid uid
              (itemsOfOrder s oid)).products := hq2
          rw [releaseLoop_products_eq oid uid (itemsOfOrder s oid) s] at hq3
          show q.id
            < (releaseLoop s oid uid (itemsOfOrder s oid)).next_product_id
          rw [releaseLoop_npid oid uid (itemsOfOrder s oid) s]
          exact bound_of_ids_eq hfold.2 hbound q hq3

theorem runOps_fullInv :
    ∀ (ops : List Op) (s : DBState), (∀ op ∈ ops, opWF op) → fullInv s →
      fullInv (runOps s ops) := by
  intro ops
  induction ops with
  | nil => exact fun s _ hs => hs
  | cons op rest ih =>
    intro s hop hs
    exact ih (applyOp s op)
      (fun x hx => hop x (List.mem_cons_of_mem op hx))
      (applyOp_fullInv hs (hop op (List.mem_cons_self op rest)))

/-- C6 (amended): the invariant `0 ≤ reserved_quantity ≤ stock_quantity`
holds for every product in every state reachable from the empty database by
public operations whose arguments are well-formed (non-negative initial
stock and non-negative quantities) — the code itself never validates
these, so a negative argument can break the invariant. -/
theorem C6_invariant_wellformed (ops : List Op)
    (h : ∀ op ∈ ops, opWF op) : stateInv (runOps initState ops) :=
  (runOps_fullInv ops initState h
    ⟨fun p hp => absurd hp (List.not_mem_nil p),
     fun r hr => absurd hr (List.not_mem_nil r),
     List.nodup_nil, fun p hp => absurd hp (List.not_mem_nil p)⟩).1

/-- Witness for C6 (amended): a create followed by a positive restock. -/
theorem C6_invariant_wellformed_witness :
    stateInv (runOps initState
      [Op.createProduct "x" "" 1 10 3, Op.restock 1 5 none]) :=
  C6_invariant_wellformed
    [Op.createProduct "x" "" 1 10 3, Op.restock 1 5 none] (by decide)

end Omnitrack
